import Mathlib

/-!
# Verification of the ShowAdvance coordination subsystem

Shallow embedding of the access-resolver, form-store, history-log and
presence/sync components of `src/app.py` (tables from `src/init_db.py`),
together with proofs of the frozen specification claims.

Modelling conventions:
* SQL `TIMESTAMP` values (always written via `CURRENT_TIMESTAMP`) are modelled
  as `Nat` instants; lexicographic comparison of `YYYY-MM-DD HH:MM:SS` strings
  coincides with chronological order, so `<`/`MAX` on `Nat` is faithful.
* JSON payload values are form-field strings; Python `str(v)` is the identity
  on them and `v or ''` is the identity (empty string maps to itself).
  Python truthiness of such a value is "non-empty".
* A SQL table is a `List` of row structures; row order inside the list is
  unobservable (every query in the source orders explicitly or builds dicts),
  and `INSERT OR REPLACE` under a `UNIQUE` constraint is modelled as
  filter-out-the-conflicting-rows-then-append.
* `NULL`able columns are `Option`; SQL's three-valued `colA != x` comparison
  (which is not satisfied when `colA` is `NULL`) is `sqlNe`.
-/

namespace ShowAdvance

/-- A row of `users` (only the columns the verified components read). -/
structure UserRow where
  id : Nat
  role : String
  deriving Repr, DecidableEq

/-- A row of `user_groups`. -/
structure GroupRow where
  id : Nat
  group_type : String
  deriving Repr, DecidableEq

/-- A row of `shows` (columns used by the verified components). -/
structure ShowRow where
  id : Nat
  name : String
  show_date : Option String
  show_time : String
  venue : String
  last_saved_by : Option Nat
  last_saved_at : Option Nat
  updated_at : Nat
  deriving Repr, DecidableEq

/-- A row of `advance_data`: `UNIQUE(show_id, field_key)`, `updated_at`
defaults to `CURRENT_TIMESTAMP`. -/
structure AdvRow where
  show_id : Nat
  field_key : String
  field_value : String
  updated_at : Nat
  deriving Repr, DecidableEq

/-- A row of `schedule_rows`. -/
structure SchedRow where
  show_id : Nat
  sort_order : Nat
  start_time : String
  end_time : String
  description : String
  notes : String
  deriving Repr, DecidableEq

/-- A row of `schedule_meta` or `post_show_notes`:
`(show_id, field_key) → field_value`, `UNIQUE(show_id, field_key)`. -/
structure KVRow where
  show_id : Nat
  field_key : String
  field_value : String
  deriving Repr, DecidableEq

/-- A schedule row as it appears inside a JSON payload (`row.get(k, '')`
defaulting already applied, as the values are form-field strings). -/
structure SchedRowPayload where
  start_time : String
  end_time : String
  description : String
  notes : String
  deriving Repr, DecidableEq

/-- The JSON object stored in `form_history.snapshot_json`, restricted to the
keys the application ever reads back (`advance_data`, `meta`, `rows`,
`notes_data`); a key maps to `none` when absent from the object. -/
structure SnapJson where
  advance_data : Option (List (String × String)) := none
  meta : Option (List (String × String)) := none
  rows : Option (List SchedRowPayload) := none
  notes_data : Option (List (String × String)) := none
  deriving Repr, DecidableEq

/-- A row of `form_history` (`snapshot_json` kept structured). -/
structure HistRow where
  id : Nat
  show_id : Nat
  form_type : String
  saved_by : Option Nat
  saved_at : Nat
  snapshot : SnapJson
  deriving Repr, DecidableEq

/-- A row of `active_sessions`: `PRIMARY KEY (user_id, show_id)`. -/
structure SessRow where
  user_id : Nat
  show_id : Nat
  tab : String
  focused_field : Option String
  last_seen : Nat
  deriving Repr, DecidableEq

/-- A row of `show_performances` (columns read by `_sync_show_primary_date`). -/
structure PerfRow where
  id : Nat
  show_id : Nat
  perf_date : Option String
  perf_time : String
  deriving Repr, DecidableEq

/-- The relational store: one `List` per table, plus the `AUTOINCREMENT`
counter for `form_history.id`. -/
structure DB where
  users : List UserRow
  user_groups : List GroupRow
  user_group_members : List (Nat × Nat)
  show_group_access : List (Nat × Nat)
  shows : List ShowRow
  advance_data : List AdvRow
  schedule_rows : List SchedRow
  schedule_meta : List KVRow
  post_show_notes : List KVRow
  form_history : List HistRow
  active_sessions : List SessRow
  show_performances : List PerfRow
  next_hist_id : Nat
  deriving Repr, DecidableEq

/-- Per-request context: the session's `user_id` and the session-cached
`is_restricted` flag that the write handlers consult. -/
structure Ctx where
  user_id : Nat
  is_restricted : Bool
  deriving Repr, DecidableEq

/-- SQL three-valued `col != x` for a nullable integer column: `NULL != x`
is unknown, hence not satisfied. -/
def sqlNe (a : Option Nat) (b : Nat) : Bool :=
  match a with
  | none => false
  | some x => x != b

/-- Python-dict lookup `d[k]` for a JSON object given as a key/value list
(later duplicate keys overwrite earlier ones, as in `json.loads`). -/
def dictGet (data : List (String × String)) (k : String) : Option String :=
  data.foldl (fun acc kv => if kv.1 = k then some kv.2 else acc) none

/-- Python `'k' in data`. -/
def dictHas (data : List (String × String)) (k : String) : Bool :=
  data.any (fun kv => kv.1 == k)

/-- `SELECT * FROM users WHERE id=?` (first match). -/
def findUser (db : DB) (uid : Nat) : Option UserRow :=
  db.users.find? (fun u => u.id == uid)

/-- `SELECT * FROM shows WHERE id=?` (first match). -/
def findShow (db : DB) (sid : Nat) : Option ShowRow :=
  db.shows.find? (fun s => s.id == sid)

/-- `_get_user_group_types` (`src/app.py:189`): group types of the user's
groups via `user_group_members JOIN user_groups`. -/
def userGroupTypes (db : DB) (uid : Nat) : List String :=
  (db.user_group_members.filter (fun m => m.1 == uid)).filterMap
    (fun m => (db.user_groups.find? (fun g => g.id == m.2)).map (·.group_type))

/-- `get_accessible_shows` (`src/app.py:212`): `none` means all shows,
`some l` means exactly the shows granted to the user's groups. -/
def get_accessible_shows (db : DB) (uid : Nat) : Option (List Nat) :=
  match findUser db uid with
  | none => none
  | some u =>
    if u.role = "admin" then none
    else
      let gts := userGroupTypes db uid
      if gts.isEmpty then none
      else if gts.any (fun t => t == "all_access" || t == "admin_group") then none
      else
        some (((db.show_group_access.filter
          (fun sa => db.user_group_members.any
            (fun m => m.1 == uid && m.2 == sa.2))).map (·.1)).dedup)

/-- `can_access_show` (`src/app.py:236`). -/
def can_access_show (db : DB) (uid : Nat) (sid : Nat) : Bool :=
  match get_accessible_shows db uid with
  | none => true
  | some l => l.contains sid

/-- `is_restricted_user` (`src/app.py:243`): true iff the user exists, is not
an admin, and belongs to at least one group, all of whose types are
`restricted`. -/
def is_restricted_user (db : DB) (uid : Nat) : Bool :=
  match findUser db uid with
  | none => false
  | some u =>
    if u.role = "admin" then false
    else
      let gts := userGroupTypes db uid
      if gts.isEmpty then false
      else gts.all (fun t => t == "restricted")

/-! ## Form store write primitives -/

/-- `INSERT OR REPLACE INTO advance_data` under `UNIQUE(show_id, field_key)`:
delete any conflicting row, insert the new one with `updated_at = now`. -/
def upsertAdvance (rows : List AdvRow) (sid : Nat) (k v : String) (now : Nat) :
    List AdvRow :=
  rows.filter (fun r => !(r.show_id == sid && r.field_key == k)) ++
    [⟨sid, k, v, now⟩]

/-- The `for key, value in data.items()` upsert loop of `save_advance`
(`src/app.py:749`) and of the `advance` arm of `restore_history`
(`src/app.py:989`). -/
def upsertAdvanceAll (rows : List AdvRow) (sid : Nat)
    (data : List (String × String)) (now : Nat) : List AdvRow :=
  data.foldl (fun acc kv => upsertAdvance acc sid kv.1 kv.2 now) rows

/-- `INSERT OR REPLACE` into `schedule_meta` / `post_show_notes` under
`UNIQUE(show_id, field_key)` (these tables carry no timestamp column). -/
def upsertKV (rows : List KVRow) (sid : Nat) (k v : String) : List KVRow :=
  rows.filter (fun r => !(r.show_id == sid && r.field_key == k)) ++ [⟨sid, k, v⟩]

/-- Key/value upsert loop over a payload dict. -/
def upsertKVAll (rows : List KVRow) (sid : Nat)
    (data : List (String × String)) : List KVRow :=
  data.foldl (fun acc kv => upsertKV acc sid kv.1 kv.2) rows

/-- `UPDATE shows SET ... WHERE id=?`. -/
def updateShow (db : DB) (sid : Nat) (f : ShowRow → ShowRow) : DB :=
  { db with shows := db.shows.map (fun s => if s.id == sid then f s else s) }

/-! ## History log -/

/-- The descending order used by the retention query
`ORDER BY saved_at DESC LIMIT 50`: newer `saved_at` first; SQLite leaves the
order of equal `saved_at` unspecified, resolved here by newer `id` first. -/
def histGE (a b : HistRow) : Prop :=
  b.saved_at < a.saved_at ∨ (b.saved_at = a.saved_at ∧ b.id ≤ a.id)

instance : DecidableRel histGE := fun a b => by
  unfold histGE; infer_instance

instance : IsTotal HistRow histGE where
  total a b := by
    rcases Nat.lt_trichotomy a.saved_at b.saved_at with h | h | h
    · exact Or.inr (Or.inl h)
    · rcases Nat.le_total b.id a.id with h' | h'
      · exact Or.inl (Or.inr ⟨h.symm, h'⟩)
      · exact Or.inr (Or.inr ⟨h, h'⟩)
    · exact Or.inl (Or.inl h)

instance : IsTrans HistRow histGE where
  trans a b c hab hbc := by
    rcases hab with h1 | ⟨e1, i1⟩
    · rcases hbc with h2 | ⟨e2, i2⟩
      · exact Or.inl (h2.trans h1)
      · exact Or.inl (e2 ▸ h1)
    · rcases hbc with h2 | ⟨e2, i2⟩
      · exact Or.inl (e1 ▸ h2)
      · exact Or.inr ⟨e2.trans e1, i2.trans i1⟩

/-- The ids selected by
`SELECT id FROM form_history WHERE show_id=? AND form_type=? ORDER BY saved_at DESC LIMIT 50`. -/
def topHistIds (rows : List HistRow) (sid : Nat) (ft : String) : List Nat :=
  ((List.insertionSort histGE
      (rows.filter (fun r => r.show_id == sid && r.form_type == ft))).take
    50).map (·.id)

/-- `_snapshot_form_history` (`src/app.py:422`): insert a snapshot row (fresh
`AUTOINCREMENT` id, `saved_at = CURRENT_TIMESTAMP`), then delete every row of
the same `(show_id, form_type)` whose id is not among the 50 most recent by
`saved_at`. -/
def snapshotFormHistory (db : DB) (sid : Nat) (ft : String) (uid : Option Nat)
    (snap : SnapJson) (now : Nat) : DB :=
  let inserted : List HistRow :=
    ⟨db.next_hist_id, sid, ft, uid, now, snap⟩ :: db.form_history
  let keep := topHistIds inserted sid ft
  { db with
    form_history :=
      inserted.filter
        (fun r => !(r.show_id == sid && r.form_type == ft) || keep.contains r.id)
    next_hist_id := db.next_hist_id + 1 }

/-! ## Save endpoints -/

/-- Outcome of a write handler: `ok` is `{'success': True}`, `failure msg` is
the structured `{'success': False, 'error': msg}` (HTTP 403) body, `notFound`
is `abort(404)`. -/
inductive SaveResult where
  | ok
  | failure (msg : String)
  | notFound
  deriving Repr, DecidableEq

/-- The `# Sync core show fields` block of `save_advance`
(`src/app.py:755`): mirror recognized core payload keys onto the `shows`
columns.  `show_name` is mirrored only when truthy (non-empty); an empty
`show_date` is stored as `NULL`; `show_time` and `venue` are mirrored
whenever present. -/
def mirrorName (db : DB) (sid : Nat) (data : List (String × String))
    (now : Nat) : DB :=
  match dictGet data "show_name" with
  | some v => if v ≠ "" then
      updateShow db sid (fun s => { s with name := v, updated_at := now })
    else db
  | none => db

/-- `if 'show_date' in data:` arm of the core-field sync. -/
def mirrorDate (db : DB) (sid : Nat) (data : List (String × String))
    (now : Nat) : DB :=
  match dictGet data "show_date" with
  | some v =>
      updateShow db sid (fun s =>
        { s with show_date := if v = "" then none else some v, updated_at := now })
  | none => db

/-- `if 'show_time' in data:` arm of the core-field sync. -/
def mirrorTime (db : DB) (sid : Nat) (data : List (String × String))
    (now : Nat) : DB :=
  match dictGet data "show_time" with
  | some v => updateShow db sid (fun s => { s with show_time := v, updated_at := now })
  | none => db

/-- `if 'venue' in data:` arm of the core-field sync. -/
def mirrorVenue (db : DB) (sid : Nat) (data : List (String × String))
    (now : Nat) : DB :=
  match dictGet data "venue" with
  | some v => updateShow db sid (fun s => { s with venue := v, updated_at := now })
  | none => db

def mirrorCoreFields (db : DB) (sid : Nat) (data : List (String × String))
    (now : Nat) : DB :=
  mirrorVenue (mirrorTime (mirrorDate (mirrorName db sid data now) sid data now)
    sid data now) sid data now

/-- `save_advance` (`src/app.py:739`): access and read-only checks, 404 check,
per-key upsert with fresh timestamps, core-field mirroring onto `shows`,
last-saved stamp, history snapshot of the received payload. -/
def save_advance (db : DB) (ctx : Ctx) (sid : Nat)
    (data : List (String × String)) (now : Nat) : SaveResult × DB :=
  if !can_access_show db ctx.user_id sid then (.failure "Access denied.", db)
  else if ctx.is_restricted then (.failure "Read-only access.", db)
  else if (findShow db sid).isNone then (.notFound, db)
  else
    let db1 := { db with advance_data := upsertAdvanceAll db.advance_data sid data now }
    let db5 := mirrorCoreFields db1 sid data now
    let db6 := updateShow db5 sid (fun s =>
      { s with last_saved_by := some ctx.user_id, last_saved_at := some now })
    let db7 := snapshotFormHistory db6 sid "advance" (some ctx.user_id)
      { advance_data := some data } now
    (.ok, db7)

/-- The body of a `/save/schedule` request: `meta` and `rows` are each
optional (`'meta' in data` / `'rows' in data`). -/
structure SchedPayload where
  meta : Option (List (String × String)) := none
  rows : Option (List SchedRowPayload) := none
  deriving Repr, DecidableEq

/-- Delete-all-then-reinsert of `schedule_rows` with 0-based `sort_order` in
submission order (`src/app.py:873`, also the `schedule` arm of restore). -/
def replaceScheduleRows (rows : List SchedRow) (sid : Nat)
    (newRows : List SchedRowPayload) : List SchedRow :=
  rows.filter (fun r => !(r.show_id == sid)) ++
    (newRows.enum.map (fun ri =>
      ⟨sid, ri.1, ri.2.start_time, ri.2.end_time, ri.2.description, ri.2.notes⟩))

/-- The `if 'meta' in data: ... if 'rows' in data: ...` processing shared
verbatim by `save_schedule` (`src/app.py:868`) and the `schedule` arm of
`restore_history` (`src/app.py:997`): upsert each meta key when `meta` is
present, delete-all-then-reinsert the rows when `rows` is present. -/
def schedDispatch (db : DB) (sid : Nat) (meta? : Option (List (String × String)))
    (rows? : Option (List SchedRowPayload)) : DB :=
  let db1 := match meta? with
    | some m => { db with schedule_meta := upsertKVAll db.schedule_meta sid m }
    | none => db
  match rows? with
    | some rs => { db1 with schedule_rows := replaceScheduleRows db1.schedule_rows sid rs }
    | none => db1

/-- `save_schedule` (`src/app.py:857`). -/
def save_schedule (db : DB) (ctx : Ctx) (sid : Nat) (data : SchedPayload)
    (now : Nat) : SaveResult × DB :=
  if !can_access_show db ctx.user_id sid then (.failure "Access denied.", db)
  else if ctx.is_restricted then (.failure "Read-only access.", db)
  else if (findShow db sid).isNone then (.notFound, db)
  else
    let db2 := schedDispatch db sid data.meta data.rows
    let db3 := updateShow db2 sid (fun s => { s with updated_at := now })
    let db4 := updateShow db3 sid (fun s =>
      { s with last_saved_by := some ctx.user_id, last_saved_at := some now })
    let db5 := snapshotFormHistory db4 sid "schedule" (some ctx.user_id)
      { meta := data.meta, rows := data.rows } now
    (.ok, db5)

/-- `save_postnotes` (`src/app.py:895`). -/
def save_postnotes (db : DB) (ctx : Ctx) (sid : Nat)
    (data : List (String × String)) (now : Nat) : SaveResult × DB :=
  if !can_access_show db ctx.user_id sid then (.failure "Access denied.", db)
  else if ctx.is_restricted then (.failure "Read-only access.", db)
  else if (findShow db sid).isNone then (.notFound, db)
  else
    let db1 := { db with post_show_notes := upsertKVAll db.post_show_notes sid data }
    let db2 := updateShow db1 sid (fun s => { s with updated_at := now })
    let db3 := updateShow db2 sid (fun s =>
      { s with last_saved_by := some ctx.user_id, last_saved_at := some now })
    let db4 := snapshotFormHistory db3 sid "postnotes" (some ctx.user_id)
      { notes_data := some data } now
    (.ok, db4)

/-- The `form_type` dispatch of `restore_history` (`src/app.py:988`): replay
the stored sub-payload through the table-specific upsert logic (the same
statements the live save paths run); an unrecognized `form_type` replays
nothing. -/
def restoreDispatch (db : DB) (sid : Nat) (entry : HistRow) (now : Nat) : DB :=
  if entry.form_type = "advance" then
    { db with advance_data :=
        upsertAdvanceAll db.advance_data sid (entry.snapshot.advance_data.getD []) now }
  else if entry.form_type = "schedule" then
    schedDispatch db sid entry.snapshot.meta entry.snapshot.rows
  else if entry.form_type = "postnotes" then
    { db with post_show_notes :=
        upsertKVAll db.post_show_notes sid (entry.snapshot.notes_data.getD []) }
  else db

/-- `restore_history` (`src/app.py:969`): permission checks, look up the
history entry, dispatch on its stored `form_type` to replay the snapshot
through the same upsert logic as a live save, then re-stamp
`last_saved_by/at`.  (No core-field mirroring and no new snapshot.) -/
def restore_history (db : DB) (ctx : Ctx) (sid : Nat) (hist_id : Nat)
    (now : Nat) : SaveResult × DB :=
  if !can_access_show db ctx.user_id sid then (.failure "Access denied.", db)
  else if ctx.is_restricted then (.failure "Read-only access.", db)
  else
    match db.form_history.find? (fun r => r.id == hist_id && r.show_id == sid) with
    | none => (.notFound, db)
    | some entry =>
      let db1 := restoreDispatch db sid entry now
      let db2 := updateShow db1 sid (fun s =>
        { s with last_saved_by := some ctx.user_id, last_saved_at := some now })
      (.ok, db2)

/-! ## Presence -/

/-- `_upsert_active_session` (`src/app.py:1284`): upsert the caller's presence
row (`PRIMARY KEY (user_id, show_id)`) with `last_seen = now`, then delete
every session row, system-wide, with `last_seen < datetime('now','-60 seconds')`,
i.e. `last_seen + 60 < now`. -/
def upsertActiveSession (sess : List SessRow) (uid sid : Nat) (tab : String)
    (ff : Option String) (now : Nat) : List SessRow :=
  let upserted : List SessRow :=
    sess.filter (fun r => !(r.user_id == uid && r.show_id == sid)) ++
      [⟨uid, sid, tab, ff, now⟩]
  upserted.filter (fun r => !(r.last_seen + 60 < now))

/-- `_get_other_active_users` (`src/app.py:1298`): session rows of the show,
excluding the caller, with `last_seen > datetime('now','-45 seconds')`
(`now < last_seen + 45`), joined against `users` (the join only drops rows of
deleted users; the display-name/initials annotation is not modelled). -/
def getOtherActiveUsers (db : DB) (uid sid : Nat) (now : Nat) : List SessRow :=
  (db.active_sessions.filter
      (fun r => r.show_id == sid && r.user_id != uid && now < r.last_seen + 45)).filter
    (fun r => db.users.any (fun u => u.id == r.user_id))

/-! ## Sync poller -/

/-- `SELECT last_saved_by FROM shows WHERE id = ?`: `NULL` when the show is
missing or its column is `NULL`. -/
def lastSavedBy (db : DB) (sid : Nat) : Option Nat :=
  (findShow db sid).bind (·.last_saved_by)

/-- Maximum of a list of instants (`SELECT MAX(...)`: `NULL` on the empty
set). -/
def listMax : List Nat → Option Nat
  | [] => none
  | x :: xs =>
    match listMax xs with
    | none => some x
    | some m => some (if x ≤ m then m else x)

/-- The show's advance rows (`WHERE show_id = ?`). -/
def advRowsOf (db : DB) (sid : Nat) : List AdvRow :=
  db.advance_data.filter (fun r => r.show_id == sid)

/-- `SELECT MAX(updated_at) FROM advance_data WHERE show_id = ?`. -/
def maxUpdatedAt (db : DB) (sid : Nat) : Option Nat :=
  listMax ((advRowsOf db sid).map (·.updated_at))

/-- The changed-fields query of `sync_advance` (`src/app.py:1337`): rows of the
show with `updated_at > since` whose show's `last_saved_by` differs (in SQL
three-valued logic) from the caller; skipped entirely when `since` is the
empty string (`none`).  Result as the `{field_key: field_value}` pairs. -/
def syncChangedFields (db : DB) (sid uid : Nat) (since : Option Nat) :
    List (String × String) :=
  match since with
  | none => []
  | some s =>
    (db.advance_data.filter
        (fun r => r.show_id == sid && s < r.updated_at && sqlNe (lastSavedBy db r.show_id) uid)).map
      (fun r => (r.field_key, r.field_value))

/-- The new cursor of `sync_advance` (`src/app.py:1350`):
`ts_row[0] if ts_row and ts_row[0] else since`. -/
def syncCursor (db : DB) (sid : Nat) (since : Option Nat) : Option Nat :=
  match maxUpdatedAt db sid with
  | some m => some m
  | none => since

/-- The JSON body returned by `sync_advance`. -/
structure SyncResponse where
  since : Option Nat
  fields : List (String × String)
  active_users : List SessRow
  deriving Repr, DecidableEq

/-- `sync_advance` (`src/app.py:1317`): access check (`abort(403)` modelled as
`none`), changed-fields delta, new cursor, presence upsert, other-active
users. -/
def sync_advance (db : DB) (uid sid : Nat) (since : Option Nat) (tab : String)
    (ff : Option String) (now : Nat) : Option SyncResponse × DB :=
  if !can_access_show db uid sid then (none, db)
  else
    let fields := syncChangedFields db sid uid since
    let newSince := syncCursor db sid since
    let db' := { db with
      active_sessions := upsertActiveSession db.active_sessions uid sid tab ff now }
    let others := getOtherActiveUsers db' uid sid now
    (some ⟨newSince, fields, others⟩, db')

/-- `_sync_show_primary_date` (`src/app.py:378`): pick the earliest
performance (`NULL` dates last, then by date, then by id); if one exists,
mirror its date/time onto the show row and upsert the `show_date`/`show_time`
advance fields with fresh timestamps; otherwise blank the show's date/time.
`last_saved_by` is not touched on either branch. -/
def perfBetter (a b : PerfRow) : Bool :=
  match a.perf_date, b.perf_date with
  | none, none => a.id < b.id
  | none, some _ => false
  | some _, none => true
  | some da, some db' => da < db' || (da == db' && a.id < b.id)

/-- The `ORDER BY (perf_date IS NULL), perf_date, id LIMIT 1` pick of
`_sync_show_primary_date`. -/
def firstPerformance (db : DB) (sid : Nat) : Option PerfRow :=
  (db.show_performances.filter (fun p => p.show_id == sid)).foldl
    (fun acc p =>
      match acc with
      | none => some p
      | some q => if perfBetter p q then some p else some q) none

def syncShowPrimaryDate (db : DB) (sid : Nat) (now : Nat) : DB :=
  match firstPerformance db sid with
  | some p =>
    let db1 := updateShow db sid (fun s =>
      { s with show_date := p.perf_date, show_time := p.perf_time, updated_at := now })
    let kvs : List (String × String) :=
      [("show_date", p.perf_date.getD ""), ("show_time", p.perf_time)]
    { db1 with advance_data := upsertAdvanceAll db1.advance_data sid kvs now }
  | none =>
    updateShow db sid (fun s =>
      { s with show_date := none, show_time := "", updated_at := now })

/-! ## The advance-data evolution relation (for the cursor claim)

Every statement in the repository that writes `advance_data` is either an
`INSERT OR REPLACE` stamped `CURRENT_TIMESTAMP` (the upsert loops of
`save_advance` at `src/app.py:751`, of the restore arm at `src/app.py:991`, of
`_sync_show_primary_date` at `src/app.py:393`, and the `new_show` inserts at
`src/app.py:596`, whose omitted `updated_at` takes the `CURRENT_TIMESTAMP`
default) or the wholesale `DELETE ... WHERE show_id=?` of `delete_show`
(`src/app.py:1691`).  A step records one request: the wall clock `now` at
which it runs is at least the world's clock, and becomes the new clock. -/

/-- A database together with the wall clock (largest instant seen so far). -/
structure World where
  db : DB
  clock : Nat

/-- One request's effect on `advance_data`, with the wall clock advancing.
The rest of the database may change arbitrarily. -/
inductive Step : World → World → Prop
  /-- A request that runs one of the repository's `INSERT OR REPLACE ...
  CURRENT_TIMESTAMP` upsert loops over `advance_data` for one show. -/
  | upsert (w : World) (db' : DB) (sid : Nat) (kvs : List (String × String))
      (now : Nat) (hclk : w.clock ≤ now)
      (hadv : db'.advance_data = upsertAdvanceAll w.db.advance_data sid kvs now) :
      Step w ⟨db', now⟩
  /-- `delete_show`: all `advance_data` rows of one show removed. -/
  | deleteShow (w : World) (db' : DB) (sid : Nat) (now : Nat)
      (hclk : w.clock ≤ now)
      (hadv : db'.advance_data = w.db.advance_data.filter (fun r => !(r.show_id == sid))) :
      Step w ⟨db', now⟩
  /-- Any request that leaves `advance_data` untouched (presence, schedule and
  post-notes saves, reads, ...). -/
  | frame (w : World) (db' : DB) (now : Nat) (hclk : w.clock ≤ now)
      (hadv : db'.advance_data = w.db.advance_data) :
      Step w ⟨db', now⟩

/-- Any number of requests. -/
def Evolves : World → World → Prop := Relation.ReflTransGen Step

/-- State invariant: every stored `updated_at` was written at some past
`CURRENT_TIMESTAMP`, hence is at most the wall clock. -/
def TimesOk (w : World) : Prop :=
  ∀ r ∈ w.db.advance_data, r.updated_at ≤ w.clock

/-- The client-side cursor order: the empty cursor precedes everything; set
cursors compare as instants. -/
def cursorLe (a b : Option Nat) : Prop :=
  match a, b with
  | none, _ => True
  | some _, none => False
  | some x, some y => x ≤ y

/-- The cursor values a polling client holds: starting cursor `c`, then after
each poll (at worlds `ws`, in order) the cursor returned by that poll, fed
into the next one. -/
def cursorTrace (sid : Nat) : Option Nat → List World → List (Option Nat)
  | c, [] => [c]
  | c, w :: ws => c :: cursorTrace sid (syncCursor w.db sid c) ws

/-- Invariant tying a client-held cursor to the world: stored stamps are
bounded by the clock, the cursor is bounded by the clock, and — whenever the
show still has advance rows — by their maximum `updated_at`. -/
def GoodCursor (w : World) (sid : Nat) (c : Option Nat) : Prop :=
  TimesOk w ∧ ∀ x, c = some x → x ≤ w.clock ∧
    (advRowsOf w.db sid ≠ [] →
      ∃ m, maxUpdatedAt w.db sid = some m ∧ x ≤ m)

/-! ## Helper lemmas about show lookups -/

theorem findShow_updateShow (db : DB) (sid sid' : Nat) (f : ShowRow → ShowRow)
    (hid : ∀ s, (f s).id = s.id) :
    findShow (updateShow db sid f) sid' =
      (findShow db sid').map (fun s => if s.id == sid then f s else s) := by
  unfold findShow updateShow
  rw [List.find?_map]
  have hcong : ((fun s : ShowRow => s.id == sid') ∘
      (fun s => if s.id == sid then f s else s)) =
      (fun s : ShowRow => s.id == sid') := by
    funext s
    simp only [Function.comp_apply]
    cases h : s.id == sid <;> simp [h, hid]
  rw [hcong]

theorem findShow_isSome_updateShow (db : DB) (sid sid' : Nat)
    (f : ShowRow → ShowRow) (hid : ∀ s, (f s).id = s.id) :
    (findShow (updateShow db sid f) sid').isSome = (findShow db sid').isSome := by
  rw [findShow_updateShow db sid sid' f hid]
  cases findShow db sid' <;> rfl

/-- Stamping `last_saved_by/at` on an existing show makes `lastSavedBy` the
stamped user. -/
theorem lastSavedBy_stamp (db : DB) (sid : Nat) (u n : Nat)
    (hsome : (findShow db sid).isSome = true) :
    lastSavedBy (updateShow db sid (fun s =>
      { s with last_saved_by := some u, last_saved_at := some n })) sid = some u := by
  unfold lastSavedBy
  rw [findShow_updateShow db sid sid (fun s =>
    { s with last_saved_by := some u, last_saved_at := some n }) (fun s => rfl)]
  rcases hfind : findShow db sid with - | s
  · rw [hfind] at hsome; cases hsome
  · have hp : s.id = sid := by
      have := List.find?_some hfind
      simpa [findShow] using this
    simp [hp]

/-! ## Helper lemmas about payload dictionaries and advance upserts -/

theorem dictGetAux (l : List (String × String)) (k : String)
    (a : Option String) :
    l.foldl (fun acc kv => if kv.1 = k then some kv.2 else acc) a =
      match l.foldl (fun acc kv => if kv.1 = k then some kv.2 else acc) none with
      | some v => some v
      | none => a := by
  induction l generalizing a with
  | nil => rfl
  | cons x l ih =>
    simp only [List.foldl_cons]
    rw [ih, ih (if x.1 = k then some x.2 else none)]
    cases h : l.foldl (fun acc kv => if kv.1 = k then some kv.2 else acc) none with
    | some v => rfl
    | none => by_cases hx : x.1 = k <;> simp [hx]

theorem dictGet_cons (kv : String × String) (rest : List (String × String))
    (k : String) :
    dictGet (kv :: rest) k =
      match dictGet rest k with
      | some v => some v
      | none => if kv.1 = k then some kv.2 else none := by
  unfold dictGet
  simp only [List.foldl_cons]
  rw [dictGetAux]

theorem dictGet_eq_none_iff (l : List (String × String)) (k : String) :
    dictGet l k = none ↔ ∀ kv ∈ l, kv.1 ≠ k := by
  induction l with
  | nil => simp [dictGet]
  | cons kv rest ih =>
    rw [dictGet_cons]
    cases h : dictGet rest k with
    | some v =>
      simp only [List.mem_cons]
      constructor
      · intro he; cases he
      · intro hall
        have := ih.mpr (fun kv' h' => hall kv' (Or.inr h'))
        rw [this] at h; cases h
    | none =>
      by_cases hx : kv.1 = k
      · simp only [if_pos hx, List.mem_cons]
        constructor
        · intro he; cases he
        · intro hall; exact absurd hx (hall kv (Or.inl rfl))
      · simp only [if_neg hx, List.mem_cons]
        constructor
        · intro _ kv' h'
          rcases h' with h' | h'
          · rw [h']; exact hx
          · exact (ih.mp h) kv' h'
        · intro _
          trivial

/-- The row-selection predicate for one `(show_id, field_key)` pair. -/
def advKeyMatch (sid : Nat) (k : String) : AdvRow → Bool :=
  fun r => r.show_id == sid && r.field_key == k

theorem filter_upsertAdvance_self (rows : List AdvRow) (sid : Nat)
    (k v : String) (now : Nat) :
    (upsertAdvance rows sid k v now).filter (advKeyMatch sid k) =
      [⟨sid, k, v, now⟩] := by
  unfold upsertAdvance
  rw [List.filter_append, List.filter_filter]
  have h0 : (rows.filter (fun a =>
      advKeyMatch sid k a && !(a.show_id == sid && a.field_key == k))) = [] := by
    apply List.filter_eq_nil_iff.mpr
    intro a _
    unfold advKeyMatch
    cases a.show_id == sid <;> cases a.field_key == k <;> simp
  rw [h0]
  simp [advKeyMatch]

theorem filter_upsertAdvance_other (rows : List AdvRow) (sid : Nat)
    (k v : String) (now : Nat) (sid' : Nat) (k' : String)
    (h : ¬(sid' = sid ∧ k' = k)) :
    (upsertAdvance rows sid k v now).filter (advKeyMatch sid' k') =
      rows.filter (advKeyMatch sid' k') := by
  unfold upsertAdvance
  rw [List.filter_append, List.filter_filter]
  have hnew : (advKeyMatch sid' k' (⟨sid, k, v, now⟩ : AdvRow)) = false := by
    unfold advKeyMatch
    simp only [Bool.and_eq_false_iff, beq_eq_false_iff_ne]
    by_cases h1 : sid = sid'
    · right; intro h2; exact h ⟨h1.symm, h2.symm⟩
    · left; exact h1
  have hpred : (fun a : AdvRow =>
      advKeyMatch sid' k' a && !(a.show_id == sid && a.field_key == k)) =
      advKeyMatch sid' k' := by
    funext a
    by_cases h1 : advKeyMatch sid' k' a = true
    · have hno : (a.show_id == sid && a.field_key == k) = false := by
        unfold advKeyMatch at h1
        rcases Bool.and_eq_true _ _ |>.mp h1 with ⟨ha, hb⟩
        simp only [beq_iff_eq] at ha hb
        simp only [Bool.and_eq_false_iff, beq_eq_false_iff_ne]
        by_cases h2 : a.show_id = sid
        · right; intro h3; exact h ⟨h2 ▸ ha.symm ▸ rfl, h3 ▸ hb.symm ▸ rfl⟩
        · left; exact h2
      rw [h1, hno]
      rfl
    · rw [Bool.not_eq_true] at h1
      rw [h1]
      rfl
  rw [hpred]
  simp [hnew]

theorem filter_upsertAdvanceAll_untouched (sid : Nat) (k : String) (now : Nat) :
    ∀ (data : List (String × String)) (rows : List AdvRow),
      (∀ kv ∈ data, kv.1 ≠ k) →
      (upsertAdvanceAll rows sid data now).filter (advKeyMatch sid k) =
        rows.filter (advKeyMatch sid k)
  | [], rows, _ => rfl
  | kv :: rest, rows, h => by
    unfold upsertAdvanceAll
    simp only [List.foldl_cons]
    rw [show (rest.foldl (fun acc kv => upsertAdvance acc sid kv.1 kv.2 now)
        (upsertAdvance rows sid kv.1 kv.2 now)) =
        upsertAdvanceAll (upsertAdvance rows sid kv.1 kv.2 now) sid rest now from rfl]
    rw [filter_upsertAdvanceAll_untouched sid k now rest _
      (fun kv' h' => h kv' (List.mem_cons_of_mem _ h'))]
    exact filter_upsertAdvance_other _ _ _ _ _ _ _
      (fun hc => h kv (List.mem_cons_self _ _) hc.2.symm)

theorem filter_upsertAdvanceAll_mem (sid : Nat) (now : Nat) :
    ∀ (data : List (String × String)) (rows : List AdvRow) (k v : String),
      dictGet data k = some v →
      (upsertAdvanceAll rows sid data now).filter (advKeyMatch sid k) =
        [⟨sid, k, v, now⟩]
  | [], _, k, v, h => by cases h
  | kv :: rest, rows, k, v, h => by
    unfold upsertAdvanceAll
    simp only [List.foldl_cons]
    rw [show (rest.foldl (fun acc kv => upsertAdvance acc sid kv.1 kv.2 now)
        (upsertAdvance rows sid kv.1 kv.2 now)) =
        upsertAdvanceAll (upsertAdvance rows sid kv.1 kv.2 now) sid rest now from rfl]
    rw [dictGet_cons] at h
    cases hr : dictGet rest k with
    | some v' =>
      simp only [hr] at h
      have hv : v' = v := Option.some.inj h
      rw [← hv]
      exact filter_upsertAdvanceAll_mem sid now rest _ k v' hr
    | none =>
      simp only [hr] at h
      by_cases hx : kv.1 = k
      · rw [if_pos hx] at h
        have hv : kv.2 = v := Option.some.inj h
        subst hx
        subst hv
        rw [filter_upsertAdvanceAll_untouched sid kv.1 now rest _
          (dictGet_eq_none_iff rest kv.1 |>.mp hr)]
        exact filter_upsertAdvance_self rows sid kv.1 kv.2 now
      · rw [if_neg hx] at h; cases h

theorem countP_upsertAdvance_le (rows : List AdvRow) (sid : Nat)
    (k v : String) (now : Nat) (sid' : Nat) (k' : String)
    (h : rows.countP (advKeyMatch sid' k') ≤ 1) :
    (upsertAdvance rows sid k v now).countP (advKeyMatch sid' k') ≤ 1 := by
  unfold upsertAdvance
  rw [List.countP_append]
  by_cases hc : sid' = sid ∧ k' = k
  · have h0 : (rows.filter (fun r =>
        !(r.show_id == sid && r.field_key == k))).countP (advKeyMatch sid' k') = 0 := by
      rw [List.countP_eq_zero]
      intro a ha
      have := (List.mem_filter.mp ha).2
      unfold advKeyMatch
      rcases hc with ⟨rfl, rfl⟩
      intro hcontra
      rw [hcontra] at this
      cases this
    rw [h0]
    have : ([(⟨sid, k, v, now⟩ : AdvRow)].countP (advKeyMatch sid' k')) ≤ 1 := by
      rcases hc with ⟨rfl, rfl⟩
      simp [advKeyMatch, List.countP_cons]
    omega
  · have h1 : ([(⟨sid, k, v, now⟩ : AdvRow)].countP (advKeyMatch sid' k')) = 0 := by
      rw [List.countP_eq_zero]
      intro a ha
      rcases List.mem_singleton.mp ha with rfl
      unfold advKeyMatch
      simp only [Bool.and_eq_true, beq_iff_eq, not_and]
      intro h2 h3
      exact hc ⟨h2.symm, h3.symm⟩
    have h2 : (rows.filter (fun r =>
        !(r.show_id == sid && r.field_key == k))).countP (advKeyMatch sid' k') ≤
        rows.countP (advKeyMatch sid' k') := by
      rw [List.countP_filter]
      apply List.countP_mono_left
      intro a _ ha
      exact (Bool.and_eq_true _ _ |>.mp ha).1
    omega

theorem countP_upsertAdvanceAll_le (sid : Nat) (now : Nat) (sid' : Nat)
    (k' : String) :
    ∀ (data : List (String × String)) (rows : List AdvRow),
      rows.countP (advKeyMatch sid' k') ≤ 1 →
      (upsertAdvanceAll rows sid data now).countP (advKeyMatch sid' k') ≤ 1
  | [], _, h => h
  | kv :: rest, rows, h => by
    unfold upsertAdvanceAll
    simp only [List.foldl_cons]
    exact countP_upsertAdvanceAll_le sid now sid' k' rest _
      (countP_upsertAdvance_le rows sid kv.1 kv.2 now sid' k' h)

/-! ## Helper lemmas about the history prune -/

theorem mem_take50_of_max (l : List HistRow) (n : HistRow) (hn : n ∈ l)
    (hdom : ∀ x ∈ l, x ≠ n → x.saved_at ≤ n.saved_at ∧ x.id < n.id) :
    n ∈ (List.insertionSort histGE l).take 50 := by
  by_contra hnot
  have hnS : n ∈ List.insertionSort histGE l := (List.mem_insertionSort _).mpr hn
  have hsplit : List.insertionSort histGE l =
      (List.insertionSort histGE l).take 50 ++
        (List.insertionSort histGE l).drop 50 :=
    (List.take_append_drop 50 _).symm
  have hnd : n ∈ (List.insertionSort histGE l).drop 50 := by
    rcases List.mem_append.mp (hsplit ▸ hnS) with h | h
    · exact absurd h hnot
    · exact h
  have htk : (List.insertionSort histGE l).take 50 ≠ [] := by
    intro hemp
    rcases List.take_eq_nil_iff.mp hemp with h | h
    · cases h
    · rw [h] at hnd; cases hnd
  obtain ⟨a, ha⟩ := List.exists_mem_of_ne_nil _ htk
  have hs : List.Sorted histGE (List.insertionSort histGE l) :=
    List.sorted_insertionSort histGE l
  have hpair : histGE a n := by
    have hpw := hsplit ▸ hs
    exact (List.pairwise_append.mp hpw).2.2 a ha n hnd
  have haInL : a ∈ l := by
    have : a ∈ List.insertionSort histGE l := by
      rw [hsplit]
      exact List.mem_append_left _ ha
    exact (List.mem_insertionSort _).mp this
  by_cases hEq : a = n
  · rw [hEq] at ha; exact hnot ha
  · rcases hdom a haInL hEq with ⟨ht, hidlt⟩
    rcases hpair with hlt | ⟨heq, hle⟩
    · omega
    · omega

/-- The snapshot row just inserted by `_snapshot_form_history` survives its
own prune (it is maximal in the retention order: its id is fresh and its
`saved_at` is the current instant). -/
theorem snapshot_row_mem (db : DB) (sid : Nat) (ft : String)
    (uid : Option Nat) (snap : SnapJson) (now : Nat)
    (hid : ∀ r ∈ db.form_history, r.id < db.next_hist_id)
    (htime : ∀ r ∈ db.form_history, r.saved_at ≤ now) :
    (⟨db.next_hist_id, sid, ft, uid, now, snap⟩ : HistRow) ∈
      (snapshotFormHistory db sid ft uid snap now).form_history := by
  unfold snapshotFormHistory
  apply List.mem_filter.mpr
  refine ⟨List.mem_cons_self _ _, ?_⟩
  apply Bool.or_eq_true _ _ |>.mpr
  right
  have hmem : (db.next_hist_id) ∈ topHistIds
      (⟨db.next_hist_id, sid, ft, uid, now, snap⟩ :: db.form_history) sid ft := by
    unfold topHistIds
    apply List.mem_map.mpr
    refine ⟨⟨db.next_hist_id, sid, ft, uid, now, snap⟩, ?_, rfl⟩
    apply mem_take50_of_max
    · apply List.mem_filter.mpr
      exact ⟨List.mem_cons_self _ _, by simp⟩
    · intro x hx hne
      have hx' : x ∈ ⟨db.next_hist_id, sid, ft, uid, now, snap⟩ ::
          db.form_history := (List.mem_filter.mp hx).1
      rcases List.mem_cons.mp hx' with h | h
      · exact absurd h hne
      · exact ⟨htime x h, hid x h⟩
  simpa using hmem

/-! ## Helper lemmas about the core-field mirror layers -/

theorem advance_data_mirrorName (db : DB) (sid : Nat)
    (data : List (String × String)) (now : Nat) :
    (mirrorName db sid data now).advance_data = db.advance_data := by
  unfold mirrorName
  cases dictGet data "show_name" with
  | none => rfl
  | some v => by_cases h : v = "" <;> simp [h, updateShow]

theorem advance_data_mirrorDate (db : DB) (sid : Nat)
    (data : List (String × String)) (now : Nat) :
    (mirrorDate db sid data now).advance_data = db.advance_data := by
  unfold mirrorDate
  cases dictGet data "show_date" <;> rfl

theorem advance_data_mirrorTime (db : DB) (sid : Nat)
    (data : List (String × String)) (now : Nat) :
    (mirrorTime db sid data now).advance_data = db.advance_data := by
  unfold mirrorTime
  cases dictGet data "show_time" <;> rfl

theorem advance_data_mirrorVenue (db : DB) (sid : Nat)
    (data : List (String × String)) (now : Nat) :
    (mirrorVenue db sid data now).advance_data = db.advance_data := by
  unfold mirrorVenue
  cases dictGet data "venue" <;> rfl

theorem advance_data_mirrorCoreFields (db : DB) (sid : Nat)
    (data : List (String × String)) (now : Nat) :
    (mirrorCoreFields db sid data now).advance_data = db.advance_data := by
  unfold mirrorCoreFields
  rw [advance_data_mirrorVenue, advance_data_mirrorTime,
    advance_data_mirrorDate, advance_data_mirrorName]

theorem hist_mirrorName (db : DB) (sid : Nat)
    (data : List (String × String)) (now : Nat) :
    (mirrorName db sid data now).form_history = db.form_history ∧
    (mirrorName db sid data now).next_hist_id = db.next_hist_id := by
  unfold mirrorName
  cases dictGet data "show_name" with
  | none => exact ⟨rfl, rfl⟩
  | some v => by_cases h : v = "" <;> simp [h, updateShow]

theorem hist_mirrorDate (db : DB) (sid : Nat)
    (data : List (String × String)) (now : Nat) :
    (mirrorDate db sid data now).form_history = db.form_history ∧
    (mirrorDate db sid data now).next_hist_id = db.next_hist_id := by
  unfold mirrorDate
  cases dictGet data "show_date" <;> exact ⟨rfl, rfl⟩

theorem hist_mirrorTime (db : DB) (sid : Nat)
    (data : List (String × String)) (now : Nat) :
    (mirrorTime db sid data now).form_history = db.form_history ∧
    (mirrorTime db sid data now).next_hist_id = db.next_hist_id := by
  unfold mirrorTime
  cases dictGet data "show_time" <;> exact ⟨rfl, rfl⟩

theorem hist_mirrorVenue (db : DB) (sid : Nat)
    (data : List (String × String)) (now : Nat) :
    (mirrorVenue db sid data now).form_history = db.form_history ∧
    (mirrorVenue db sid data now).next_hist_id = db.next_hist_id := by
  unfold mirrorVenue
  cases dictGet data "venue" <;> exact ⟨rfl, rfl⟩

theorem form_history_mirrorCoreFields (db : DB) (sid : Nat)
    (data : List (String × String)) (now : Nat) :
    (mirrorCoreFields db sid data now).form_history = db.form_history ∧
    (mirrorCoreFields db sid data now).next_hist_id = db.next_hist_id := by
  unfold mirrorCoreFields
  constructor
  · rw [(hist_mirrorVenue _ _ _ _).1, (hist_mirrorTime _ _ _ _).1,
      (hist_mirrorDate _ _ _ _).1, (hist_mirrorName _ _ _ _).1]
  · rw [(hist_mirrorVenue _ _ _ _).2, (hist_mirrorTime _ _ _ _).2,
      (hist_mirrorDate _ _ _ _).2, (hist_mirrorName _ _ _ _).2]

theorem findShow_map_of_preserve {α : Type} (db : DB) (sid sid' : Nat)
    (f : ShowRow → ShowRow) (fld : ShowRow → α)
    (hid : ∀ s, (f s).id = s.id) (hfld : ∀ s, fld (f s) = fld s) :
    (findShow (updateShow db sid f) sid').map fld = (findShow db sid').map fld := by
  rw [findShow_updateShow db sid sid' f hid]
  cases findShow db sid' with
  | none => rfl
  | some s =>
    show some (fld (if s.id == sid then f s else s)) = some (fld s)
    cases h : s.id == sid <;> simp [hfld]

theorem findShow_updateShow_self (db : DB) (sid : Nat) (f : ShowRow → ShowRow)
    (hid : ∀ s, (f s).id = s.id) :
    findShow (updateShow db sid f) sid = (findShow db sid).map f := by
  rw [findShow_updateShow db sid sid f hid]
  cases hfind : findShow db sid with
  | none => rfl
  | some s =>
    have hp : s.id = sid := by
      simpa [findShow] using List.find?_some hfind
    simp [hp]

theorem isSome_mirrorDate (db : DB) (sid sid' : Nat)
    (data : List (String × String)) (now : Nat) :
    (findShow (mirrorDate db sid data now) sid').isSome =
      (findShow db sid').isSome := by
  unfold mirrorDate
  cases dictGet data "show_date" with
  | none => rfl
  | some v => exact findShow_isSome_updateShow _ _ _ _ (fun s => rfl)

theorem isSome_mirrorTime (db : DB) (sid sid' : Nat)
    (data : List (String × String)) (now : Nat) :
    (findShow (mirrorTime db sid data now) sid').isSome =
      (findShow db sid').isSome := by
  unfold mirrorTime
  cases dictGet data "show_time" with
  | none => rfl
  | some v => exact findShow_isSome_updateShow _ _ _ _ (fun s => rfl)

theorem isSome_mirrorName (db : DB) (sid sid' : Nat)
    (data : List (String × String)) (now : Nat) :
    (findShow (mirrorName db sid data now) sid').isSome =
      (findShow db sid').isSome := by
  unfold mirrorName
  cases dictGet data "show_name" with
  | none => rfl
  | some v =>
    by_cases h : v = "" <;> simp [h, findShow_isSome_updateShow]

theorem isSome_mirrorVenue (db : DB) (sid sid' : Nat)
    (data : List (String × String)) (now : Nat) :
    (findShow (mirrorVenue db sid data now) sid').isSome =
      (findShow db sid').isSome := by
  unfold mirrorVenue
  cases dictGet data "venue" with
  | none => rfl
  | some v => exact findShow_isSome_updateShow _ _ _ _ (fun s => rfl)

theorem isSome_mirrorCoreFields (db : DB) (sid sid' : Nat)
    (data : List (String × String)) (now : Nat) :
    (findShow (mirrorCoreFields db sid data now) sid').isSome =
      (findShow db sid').isSome := by
  unfold mirrorCoreFields
  rw [isSome_mirrorVenue, isSome_mirrorTime, isSome_mirrorDate, isSome_mirrorName]

theorem map_name_mirrorDate (db : DB) (sid sid' : Nat)
    (data : List (String × String)) (now : Nat) :
    (findShow (mirrorDate db sid data now) sid').map (·.name) =
      (findShow db sid').map (·.name) := by
  unfold mirrorDate
  cases dictGet data "show_date" with
  | none => rfl
  | some v => exact findShow_map_of_preserve _ _ _ _ _ (fun s => rfl) (fun s => rfl)

theorem map_name_mirrorTime (db : DB) (sid sid' : Nat)
    (data : List (String × String)) (now : Nat) :
    (findShow (mirrorTime db sid data now) sid').map (·.name) =
      (findShow db sid').map (·.name) := by
  unfold mirrorTime
  cases dictGet data "show_time" with
  | none => rfl
  | some v => exact findShow_map_of_preserve _ _ _ _ _ (fun s => rfl) (fun s => rfl)

theorem map_name_mirrorVenue (db : DB) (sid sid' : Nat)
    (data : List (String × String)) (now : Nat) :
    (findShow (mirrorVenue db sid data now) sid').map (·.name) =
      (findShow db sid').map (·.name) := by
  unfold mirrorVenue
  cases dictGet data "venue" with
  | none => rfl
  | some v => exact findShow_map_of_preserve _ _ _ _ _ (fun s => rfl) (fun s => rfl)

theorem map_date_mirrorTime (db : DB) (sid sid' : Nat)
    (data : List (String × String)) (now : Nat) :
    (findShow (mirrorTime db sid data now) sid').map (·.show_date) =
      (findShow db sid').map (·.show_date) := by
  unfold mirrorTime
  cases dictGet data "show_time" with
  | none => rfl
  | some v => exact findShow_map_of_preserve _ _ _ _ _ (fun s => rfl) (fun s => rfl)

theorem map_date_mirrorVenue (db : DB) (sid sid' : Nat)
    (data : List (String × String)) (now : Nat) :
    (findShow (mirrorVenue db sid data now) sid').map (·.show_date) =
      (findShow db sid').map (·.show_date) := by
  unfold mirrorVenue
  cases dictGet data "venue" with
  | none => rfl
  | some v => exact findShow_map_of_preserve _ _ _ _ _ (fun s => rfl) (fun s => rfl)

theorem map_time_mirrorVenue (db : DB) (sid sid' : Nat)
    (data : List (String × String)) (now : Nat) :
    (findShow (mirrorVenue db sid data now) sid').map (·.show_time) =
      (findShow db sid').map (·.show_time) := by
  unfold mirrorVenue
  cases dictGet data "venue" with
  | none => rfl
  | some v => exact findShow_map_of_preserve _ _ _ _ _ (fun s => rfl) (fun s => rfl)

/-! ## Claim theorems -/

/-- **C4.** For every user: if the user's role is `admin`, or the user has no
groups, or any of the user's groups has type `all_access` or `admin_group`,
then `get_accessible_shows` returns `none` (ALL); otherwise it returns exactly
the set of show ids granted to any of the user's groups (possibly empty); and
`is_restricted_user` holds iff the user is not an admin, has at least one
group, and every group's type is `restricted`. -/
theorem access_resolver_spec (db : DB) (uid : Nat) (u : UserRow)
    (hu : findUser db uid = some u) :
    ((u.role = "admin" ∨ userGroupTypes db uid = [] ∨
        ∃ t ∈ userGroupTypes db uid, t = "all_access" ∨ t = "admin_group") →
      get_accessible_shows db uid = none) ∧
    (u.role ≠ "admin" → userGroupTypes db uid ≠ [] →
      (∀ t ∈ userGroupTypes db uid, t ≠ "all_access" ∧ t ≠ "admin_group") →
      ∃ l, get_accessible_shows db uid = some l ∧
        ∀ s, s ∈ l ↔ ∃ g, (uid, g) ∈ db.user_group_members ∧
          (s, g) ∈ db.show_group_access) ∧
    (is_restricted_user db uid = true ↔
      u.role ≠ "admin" ∧ userGroupTypes db uid ≠ [] ∧
        ∀ t ∈ userGroupTypes db uid, t = "restricted") := by
  refine ⟨?_, ?_, ?_⟩
  · rintro (h | h | ⟨t, ht, h⟩)
    · simp [get_accessible_shows, hu, h]
    · simp [get_accessible_shows, hu, h]
    · by_cases hr : u.role = "admin"
      · simp [get_accessible_shows, hu, hr]
      · have hne : (userGroupTypes db uid).isEmpty = false := by
          cases hgt : userGroupTypes db uid with
          | nil => rw [hgt] at ht; cases ht
          | cons a l => rfl
        have hany : (userGroupTypes db uid).any
            (fun t => t == "all_access" || t == "admin_group") = true := by
          rw [List.any_eq_true]
          exact ⟨t, ht, by rcases h with h | h <;> simp [h]⟩
        simp [get_accessible_shows, hu, hr, hne, hany]
  · intro hr hne hall
    have hne' : (userGroupTypes db uid).isEmpty = false := by
      cases hgt : userGroupTypes db uid with
      | nil => exact absurd hgt hne
      | cons a l => rfl
    have hany : (userGroupTypes db uid).any
        (fun t => t == "all_access" || t == "admin_group") = false := by
      rw [← Bool.not_eq_true, List.any_eq_true]
      rintro ⟨t, ht, h⟩
      rcases hall t ht with ⟨h1, h2⟩
      rcases Bool.or_eq_true _ _ |>.mp h with h | h
      · exact h1 (by simpa using h)
      · exact h2 (by simpa using h)
    refine ⟨(((db.show_group_access.filter
        (fun sa => db.user_group_members.any
          (fun m => m.1 == uid && m.2 == sa.2))).map (·.1)).dedup), ?_, ?_⟩
    · simp [get_accessible_shows, hu, hr, hne', hany]
    · intro s
      simp only [List.mem_dedup, List.mem_map, List.mem_filter, List.any_eq_true]
      constructor
      · rintro ⟨sa, ⟨hsa, m, hm, hmm⟩, rfl⟩
        rcases Bool.and_eq_true _ _ |>.mp hmm with ⟨h1, h2⟩
        refine ⟨sa.2, ?_, hsa⟩
        have hmeq : m = (uid, sa.2) := by
          rcases m with ⟨m1, m2⟩
          simp only [beq_iff_eq] at h1 h2
          simp [h1, h2]
        rwa [hmeq] at hm
      · rintro ⟨g, hm, hg⟩
        exact ⟨(s, g), ⟨hg, (uid, g), hm, by simp⟩, rfl⟩
  · by_cases hr : u.role = "admin"
    · simp only [is_restricted_user, hu, if_pos hr]
      constructor
      · intro h; cases h
      · rintro ⟨h, -, -⟩; exact absurd hr h
    · by_cases hne : (userGroupTypes db uid).isEmpty
      · simp only [is_restricted_user, hu, if_neg hr, hne, if_true]
        constructor
        · intro h; cases h
        · rintro ⟨-, h, -⟩
          exact absurd (List.isEmpty_iff.mp hne) h
      · have hne' : (userGroupTypes db uid).isEmpty = false :=
          Bool.not_eq_true _ |>.mp hne
        simp only [is_restricted_user, hu, if_neg hr, hne',
          Bool.false_eq_true, if_false, List.all_eq_true]
        constructor
        · intro h
          refine ⟨hr, ?_, fun t ht => by simpa using h t ht⟩
          intro hnil
          rw [hnil] at hne'
          simp [List.isEmpty] at hne'
        · rintro ⟨-, -, h⟩
          intro t ht
          simp [h t ht]

/-- Concrete database for the access-resolver witness: user 1 sits in the
single `restricted` group 10, which is granted show 7. -/
def dbC4 : DB :=
  { users := [⟨1, "user"⟩], user_groups := [⟨10, "restricted"⟩],
    user_group_members := [(1, 10)], show_group_access := [(7, 10)],
    shows := [], advance_data := [], schedule_rows := [],
    schedule_meta := [], post_show_notes := [], form_history := [],
    active_sessions := [], show_performances := [], next_hist_id := 0 }

/-- Closed witness for `access_resolver_spec`: a user in one `restricted`
group granted show 7 sees exactly that show and is read-only. -/
theorem access_resolver_spec_witness :
    is_restricted_user dbC4 1 = true ∧ get_accessible_shows dbC4 1 = some [7] := by
  have h := access_resolver_spec dbC4 1 ⟨1, "user"⟩ (by decide)
  refine ⟨h.2.2.mpr ⟨by decide, by decide, by decide⟩, by decide⟩

/-- **C6.** A presence row whose `last_seen` is more than 60 seconds before
the touching request's clock does not survive any touch (by any user, on any
show), and `others_active` never includes a row whose `last_seen` is more than
45 seconds in the past. -/
theorem presence_expiry_spec (sess : List SessRow) (db : DB) (uid sid : Nat)
    (tab : String) (ff : Option String) (now : Nat) :
    (∀ r : SessRow, r.last_seen + 60 < now →
      r ∉ upsertActiveSession sess uid sid tab ff now) ∧
    (∀ r : SessRow, r.last_seen + 45 < now →
      r ∉ getOtherActiveUsers db uid sid now) := by
  constructor
  · intro r hstale hmem
    have := (List.mem_filter.mp hmem).2
    simp only [Bool.not_eq_eq_eq_not, Bool.not_true, decide_eq_false_iff_not] at this
    exact this hstale
  · intro r hstale hmem
    have h1 := (List.mem_filter.mp (List.mem_filter.mp hmem).1).2
    have : now < r.last_seen + 45 := by
      have := Bool.and_eq_true _ _ |>.mp h1 |>.2
      simpa using this
    omega

/-- Concrete database for the presence witness: user 2's presence row on
show 1 is 100 seconds old at clock 200. -/
def dbC6 : DB :=
  { users := [⟨1, "user"⟩, ⟨2, "user"⟩], user_groups := [],
    user_group_members := [], show_group_access := [],
    shows := [], advance_data := [], schedule_rows := [],
    schedule_meta := [], post_show_notes := [], form_history := [],
    active_sessions := [⟨2, 1, "advance", none, 100⟩],
    show_performances := [], next_hist_id := 0 }

/-- Closed witness for `presence_expiry_spec`: the 100-seconds-old row of user
2 neither survives user 1's touch at clock 200 nor appears in
`others_active`. -/
theorem presence_expiry_spec_witness :
    (⟨2, 1, "advance", none, 100⟩ : SessRow) ∉
        upsertActiveSession dbC6.active_sessions 1 1 "advance" none 200 ∧
    (⟨2, 1, "advance", none, 100⟩ : SessRow) ∉ getOtherActiveUsers dbC6 1 1 200 := by
  have h := presence_expiry_spec dbC6.active_sessions dbC6 1 1 "advance" none 200
  exact ⟨h.1 _ (by decide), h.2 _ (by decide)⟩

/-- **C9.** Every write handler (advance / schedule / post-notes save and
history restore) returns the structured `Access denied.` failure with the
database unchanged when the access resolver rejects the user for the show,
and the structured `Read-only access.` failure with the database unchanged
when the user is visibility-permitted but read-only; both checks precede any
write. -/
theorem write_permission_gate (db : DB) (ctx : Ctx) (sid hist_id : Nat)
    (adv pn : List (String × String)) (sp : SchedPayload) (now : Nat) :
    (can_access_show db ctx.user_id sid = false →
      save_advance db ctx sid adv now = (.failure "Access denied.", db) ∧
      save_schedule db ctx sid sp now = (.failure "Access denied.", db) ∧
      save_postnotes db ctx sid pn now = (.failure "Access denied.", db) ∧
      restore_history db ctx sid hist_id now = (.failure "Access denied.", db)) ∧
    (can_access_show db ctx.user_id sid = true → ctx.is_restricted = true →
      save_advance db ctx sid adv now = (.failure "Read-only access.", db) ∧
      save_schedule db ctx sid sp now = (.failure "Read-only access.", db) ∧
      save_postnotes db ctx sid pn now = (.failure "Read-only access.", db) ∧
      restore_history db ctx sid hist_id now = (.failure "Read-only access.", db)) := by
  constructor
  · intro h
    refine ⟨?_, ?_, ?_, ?_⟩ <;>
      simp [save_advance, save_schedule, save_postnotes, restore_history, h]
  · intro h hro
    refine ⟨?_, ?_, ?_, ?_⟩ <;>
      simp [save_advance, save_schedule, save_postnotes, restore_history, h, hro]

/-- Concrete database for the permission-gate witness: user 1 is in the
`restricted` group 10 which is granted only show 7; show 9 exists but is not
granted. -/
def dbC9 : DB :=
  { users := [⟨1, "user"⟩], user_groups := [⟨10, "restricted"⟩],
    user_group_members := [(1, 10)], show_group_access := [(7, 10)],
    shows := [⟨9, "Other", none, "", "Hall", none, none, 0⟩,
              ⟨7, "Mine", none, "", "Hall", none, none, 0⟩],
    advance_data := [], schedule_rows := [], schedule_meta := [],
    post_show_notes := [], form_history := [], active_sessions := [],
    show_performances := [], next_hist_id := 0 }

/-- Closed witness for `write_permission_gate`: the restricted user's write to
the ungranted show 9 is denied, and their write to the granted show 7 is
rejected as read-only, both leaving the database unchanged. -/
theorem write_permission_gate_witness :
    save_advance dbC9 ⟨1, true⟩ 9 [("venue", "X")] 5 =
        (.failure "Access denied.", dbC9) ∧
    save_advance dbC9 ⟨1, true⟩ 7 [("venue", "X")] 5 =
        (.failure "Read-only access.", dbC9) := by
  have h9 := write_permission_gate dbC9 ⟨1, true⟩ 9 0 [("venue", "X")] [] ⟨none, none⟩ 5
  have h7 := write_permission_gate dbC9 ⟨1, true⟩ 7 0 [("venue", "X")] [] ⟨none, none⟩ 5
  exact ⟨(h9.1 (by decide)).1, (h7.2 (by decide) rfl).1⟩

/-- **C7.** A permitted schedule save whose payload contains a `rows` list
replaces the entire stored row set of the show: afterwards the show's rows are
exactly the submitted ones with 0-based `sort_order` in submission order, and
rows of other shows are untouched. -/
theorem schedule_replace_all_spec (db : DB) (ctx : Ctx) (sid : Nat)
    (meta? : Option (List (String × String))) (rs : List SchedRowPayload)
    (now : Nat)
    (hacc : can_access_show db ctx.user_id sid = true)
    (hro : ctx.is_restricted = false)
    (hshow : (findShow db sid).isNone = false) :
    ((save_schedule db ctx sid ⟨meta?, some rs⟩ now).2.schedule_rows.filter
        (fun r => r.show_id == sid)) =
      rs.enum.map (fun ri =>
        ⟨sid, ri.1, ri.2.start_time, ri.2.end_time, ri.2.description, ri.2.notes⟩) ∧
    ((save_schedule db ctx sid ⟨meta?, some rs⟩ now).2.schedule_rows.filter
        (fun r => !(r.show_id == sid))) =
      db.schedule_rows.filter (fun r => !(r.show_id == sid)) ∧
    (save_schedule db ctx sid ⟨meta?, some rs⟩ now).1 = .ok := by
  have hrows : (save_schedule db ctx sid ⟨meta?, some rs⟩ now).2.schedule_rows =
      replaceScheduleRows db.schedule_rows sid rs := by
    cases meta? <;>
      simp [save_schedule, schedDispatch, hacc, hro, hshow, snapshotFormHistory,
        updateShow]
  refine ⟨?_, ?_, ?_⟩
  · rw [hrows]
    unfold replaceScheduleRows
    rw [List.filter_append]
    have h1 : (db.schedule_rows.filter (fun r => !(r.show_id == sid))).filter
        (fun r => r.show_id == sid) = [] := by
      rw [List.filter_filter]
      apply List.filter_eq_nil_iff.mpr
      intro a _
      simp
    have h2 : (rs.enum.map (fun ri =>
        (⟨sid, ri.1, ri.2.start_time, ri.2.end_time, ri.2.description,
          ri.2.notes⟩ : SchedRow))).filter (fun r => r.show_id == sid) =
        rs.enum.map (fun ri =>
          ⟨sid, ri.1, ri.2.start_time, ri.2.end_time, ri.2.description, ri.2.notes⟩) := by
      apply List.filter_eq_self.mpr
      intro a ha
      rcases List.mem_map.mp ha with ⟨ri, _, rfl⟩
      simp
    rw [h1, h2, List.nil_append]
  · rw [hrows]
    unfold replaceScheduleRows
    rw [List.filter_append]
    have h2 : (rs.enum.map (fun ri =>
        (⟨sid, ri.1, ri.2.start_time, ri.2.end_time, ri.2.description,
          ri.2.notes⟩ : SchedRow))).filter (fun r => !(r.show_id == sid)) = [] := by
      apply List.filter_eq_nil_iff.mpr
      intro a ha
      rcases List.mem_map.mp ha with ⟨ri, _, rfl⟩
      simp
    rw [h2, List.append_nil, List.filter_filter]
    congr 1
    funext r
    exact Bool.and_self _
  · cases meta? <;> simp [save_schedule, schedDispatch, hacc, hro, hshow]

/-- Concrete database for the schedule witness: show 1 exists and already has
the two rows A (sort 0) and B (sort 1); user 1 has full access. -/
def dbC7 : DB :=
  { users := [⟨1, "admin"⟩], user_groups := [], user_group_members := [],
    show_group_access := [],
    shows := [⟨1, "S", none, "", "Hall", none, none, 0⟩],
    advance_data := [],
    schedule_rows := [⟨1, 0, "10:00", "11:00", "A", ""⟩,
                      ⟨1, 1, "11:00", "12:00", "B", ""⟩],
    schedule_meta := [], post_show_notes := [], form_history := [],
    active_sessions := [], show_performances := [], next_hist_id := 0 }

/-- Closed witness for `schedule_replace_all_spec`: saving `rows=[B]` over the
stored `[A, B]` leaves exactly row B with `sort_order 0`; row A is gone. -/
theorem schedule_replace_all_spec_witness :
    ((save_schedule dbC7 ⟨1, false⟩ 1
        ⟨none, some [⟨"11:00", "12:00", "B", ""⟩]⟩ 9).2.schedule_rows.filter
      (fun r => r.show_id == 1)) = [⟨1, 0, "11:00", "12:00", "B", ""⟩] := by
  have h := schedule_replace_all_spec dbC7 ⟨1, false⟩ 1 none
    [⟨"11:00", "12:00", "B", ""⟩] 9 (by decide) rfl (by decide)
  rw [h.1]
  decide

/-- **C10.** For a show whose `last_saved_by` is unset (`NULL`), the
changed-fields delta of every sync call is empty, for every caller and every
cursor, because the SQL `last_saved_by != user` comparison never holds on
`NULL`; and the performance-sync path (`_sync_show_primary_date`), which does
write advance fields, leaves `last_saved_by` untouched. -/
theorem sync_null_last_saved_spec (db : DB) (sid : Nat)
    (hnull : lastSavedBy db sid = none) :
    (∀ uid : Nat, ∀ since : Option Nat, syncChangedFields db sid uid since = []) ∧
    (∀ db' : DB, ∀ sid' now : Nat,
      lastSavedBy (syncShowPrimaryDate db' sid' now) sid' = lastSavedBy db' sid') := by
  constructor
  · intro uid since
    cases since with
    | none => rfl
    | some s =>
      apply List.map_eq_nil_iff.mpr
      apply List.filter_eq_nil_iff.mpr
      intro r _ hcond
      rcases Bool.and_eq_true _ _ |>.mp hcond with ⟨h1, h2⟩
      rcases Bool.and_eq_true _ _ |>.mp h1 with ⟨hsid, _⟩
      have : r.show_id = sid := by simpa using hsid
      rw [this, hnull] at h2
      cases h2
  · intro db' sid' now
    have congrShows : ∀ dba dbb : DB, dba.shows = dbb.shows →
        lastSavedBy dba sid' = lastSavedBy dbb sid' := by
      intro dba dbb h
      unfold lastSavedBy findShow
      rw [h]
    have key : ∀ (dbx : DB) (f : ShowRow → ShowRow),
        (∀ s, (f s).id = s.id) → (∀ s, (f s).last_saved_by = s.last_saved_by) →
        lastSavedBy (updateShow dbx sid' f) sid' = lastSavedBy dbx sid' := by
      intro dbx f hid hls
      unfold lastSavedBy findShow updateShow
      rw [List.find?_map]
      have hcong : ((fun s : ShowRow => s.id == sid') ∘
          (fun s => if s.id == sid' then f s else s)) =
          (fun s : ShowRow => s.id == sid') := by
        funext s
        simp only [Function.comp_apply]
        cases h : s.id == sid' with
        | false => simp [h]
        | true => simp [h, hid]
      rw [hcong]
      cases hfind : dbx.shows.find? (fun s => s.id == sid') with
      | none => rfl
      | some s =>
        show (some (if s.id == sid' then f s else s)).bind (·.last_saved_by) =
          (some s).bind (·.last_saved_by)
        cases h : s.id == sid' <;> simp [h, hls]
    unfold syncShowPrimaryDate
    cases hfirst : firstPerformance db' sid' with
    | some p =>
      simp only
      refine Eq.trans (congrShows _ (updateShow db' sid' (fun s =>
        { s with show_date := p.perf_date, show_time := p.perf_time,
                 updated_at := now })) rfl) ?_
      exact key _ _ (fun s => rfl) (fun s => rfl)
    | none =>
      simp only
      exact key _ _ (fun s => rfl) (fun s => rfl)

/-- Concrete database for the NULL-`last_saved_by` witness: show 1 has an
advance row stamped 10, but `last_saved_by` is `NULL`. -/
def dbC10 : DB :=
  { users := [⟨1, "admin"⟩], user_groups := [], user_group_members := [],
    show_group_access := [],
    shows := [⟨1, "S", none, "", "Hall", none, none, 0⟩],
    advance_data := [⟨1, "venue", "Hall", 10⟩],
    schedule_rows := [], schedule_meta := [], post_show_notes := [],
    form_history := [], active_sessions := [], show_performances := [],
    next_hist_id := 0 }

/-- Closed witness for `sync_null_last_saved_spec`: with `last_saved_by` NULL,
the delta is empty even though the row's `updated_at = 10` exceeds the
cursor 5. -/
theorem sync_null_last_saved_spec_witness :
    syncChangedFields dbC10 1 2 (some 5) = [] ∧ (5 : Nat) < 10 := by
  have h := sync_null_last_saved_spec dbC10 1 (by decide)
  exact ⟨h.1 2 (some 5), by decide⟩

/-- **C1.** The sync changed-fields delta: with a non-empty cursor it contains
exactly the `(field_key, field_value)` pairs of the show's advance rows whose
`updated_at` is strictly greater than the cursor and whose show's
`last_saved_by` is a user other than the caller; when the show's
`last_saved_by` is the caller (as it is right after the caller's own save),
the delta is empty for every cursor; and with an empty cursor the delta is
always empty. -/
theorem sync_delta_spec (db : DB) (sid uid : Nat) (s : Nat) :
    (syncChangedFields db sid uid none = []) ∧
    (∀ k v : String, (k, v) ∈ syncChangedFields db sid uid (some s) ↔
      ∃ r ∈ db.advance_data, r.show_id = sid ∧ s < r.updated_at ∧
        (∃ o, lastSavedBy db sid = some o ∧ o ≠ uid) ∧
        r.field_key = k ∧ r.field_value = v) ∧
    (lastSavedBy db sid = some uid →
      ∀ since : Option Nat, syncChangedFields db sid uid since = []) := by
  refine ⟨rfl, ?_, ?_⟩
  · intro k v
    unfold syncChangedFields
    rw [List.mem_map]
    constructor
    · rintro ⟨r, hr, hkv⟩
      rcases List.mem_filter.mp hr with ⟨hmem, hcond⟩
      rcases Bool.and_eq_true _ _ |>.mp hcond with ⟨h1, h2⟩
      rcases Bool.and_eq_true _ _ |>.mp h1 with ⟨hsid, hlt⟩
      have hsid' : r.show_id = sid := by simpa using hsid
      have hlt' : s < r.updated_at := by simpa using hlt
      rw [hsid'] at h2
      have hex : ∃ o, lastSavedBy db sid = some o ∧ o ≠ uid := by
        unfold sqlNe at h2
        rcases hls : lastSavedBy db sid with - | o
        · rw [hls] at h2; cases h2
        · rw [hls] at h2
          exact ⟨o, rfl, by simpa using h2⟩
      have hk : r.field_key = k := congrArg Prod.fst hkv
      have hv : r.field_value = v := congrArg Prod.snd hkv
      exact ⟨r, hmem, hsid', hlt', hex, hk, hv⟩
    · rintro ⟨r, hmem, hsid, hlt, ⟨o, hls, ho⟩, hk, hv⟩
      refine ⟨r, List.mem_filter.mpr ⟨hmem, ?_⟩, by rw [hk, hv]⟩
      have h2 : sqlNe (lastSavedBy db sid) uid = true := by
        rw [hls]
        unfold sqlNe
        simpa using ho
      simp [hsid, hlt, h2]
  · intro hself since
    cases since with
    | none => rfl
    | some s' =>
      unfold syncChangedFields
      apply List.map_eq_nil_iff.mpr
      apply List.filter_eq_nil_iff.mpr
      intro r _ hcond
      rcases Bool.and_eq_true _ _ |>.mp hcond with ⟨h1, h2⟩
      rcases Bool.and_eq_true _ _ |>.mp h1 with ⟨hsid, -⟩
      have hsid' : r.show_id = sid := by simpa using hsid
      rw [hsid', hself] at h2
      unfold sqlNe at h2
      simp at h2

/-- Concrete database for the sync-delta witness: show 1 was last saved by
user 3; rows `venue` (stamp 10) and `city` (stamp 4) exist. -/
def dbC1 : DB :=
  { users := [⟨2, "admin"⟩, ⟨3, "admin"⟩], user_groups := [],
    user_group_members := [], show_group_access := [],
    shows := [⟨1, "S", none, "", "Hall", some 3, some 10, 0⟩],
    advance_data := [⟨1, "venue", "Big Room", 10⟩, ⟨1, "city", "Rome", 4⟩],
    schedule_rows := [], schedule_meta := [], post_show_notes := [],
    form_history := [], active_sessions := [], show_performances := [],
    next_hist_id := 0 }

/-- Closed witness for `sync_delta_spec`: caller 2 with cursor 5 sees exactly
`venue` (stamped 10 by user 3) and not `city` (stamped 4); caller 3 — the
last saver — sees nothing; an empty cursor yields nothing. -/
theorem sync_delta_spec_witness :
    (("venue", "Big Room") ∈ syncChangedFields dbC1 1 2 (some 5)) ∧
    (("city", "Rome") ∉ syncChangedFields dbC1 1 2 (some 5)) ∧
    syncChangedFields dbC1 1 3 (some 5) = [] ∧
    syncChangedFields dbC1 1 2 none = [] := by
  have h2 := sync_delta_spec dbC1 1 2 5
  have h3 := sync_delta_spec dbC1 1 3 5
  refine ⟨?_, ?_, h3.2.2 (by decide) (some 5), h2.1⟩
  · exact (h2.2.1 "venue" "Big Room").mpr
      ⟨⟨1, "venue", "Big Room", 10⟩, by decide, rfl, by decide,
        ⟨3, by decide, by decide⟩, rfl, rfl⟩
  · intro hmem
    rcases (h2.2.1 "city" "Rome").mp hmem with ⟨r, hr, -, hlt, -, hk, hv⟩
    simp only [dbC1, List.mem_cons, List.not_mem_nil, or_false] at hr
    rcases hr with hr | hr
    · rw [hr] at hk; exact absurd hk (by decide)
    · rw [hr] at hlt; exact absurd hlt (by decide)

/-- Concrete database for the advance-save theorems: show 1 (named `"X"`)
exists, is empty of advance rows, and user 1 is an admin. -/
def dbC5 : DB :=
  { users := [⟨1, "admin"⟩], user_groups := [], user_group_members := [],
    show_group_access := [],
    shows := [⟨1, "X", none, "", "Hall", none, none, 0⟩],
    advance_data := [], schedule_rows := [], schedule_meta := [],
    post_show_notes := [], form_history := [], active_sessions := [],
    show_performances := [], next_hist_id := 0 }

/-- **C5, counterexample.** The claim "whenever P contains a recognized core
key, that value is mirrored onto the corresponding column of the Show entity"
fails for an empty `show_name`: the payload `{show_name: ""}` contains the
name core key, yet after the save the show is still named `"X"`, not `""`
(the code mirrors the name only when it is truthy). -/
theorem save_advance_mirror_counterexample :
    dictGet [("show_name", "")] "show_name" = some "" ∧
    (findShow (save_advance dbC5 ⟨1, false⟩ 1 [("show_name", "")] 5).2 1).map
        (·.name) = some "X" ∧
    some "X" ≠ some "" := by
  refine ⟨by decide, by decide, by decide⟩

/-- **C5, amended.** For every permitted advance save with payload `P`: every
key of `P` is upserted with the fresh timestamp, leaving exactly one row for
that `(show_id, key)` and at most one row per pair overall; the core keys are
mirrored onto the `shows` columns — `show_name` only when non-empty, an empty
`show_date` as `NULL`, `show_time` and `venue` unconditionally;
`last_saved_by/at` is stamped to the saving user and instant; and a history
snapshot carrying exactly the received payload is recorded. -/
theorem save_advance_spec (db : DB) (ctx : Ctx) (sid : Nat)
    (data : List (String × String)) (now : Nat)
    (hacc : can_access_show db ctx.user_id sid = true)
    (hro : ctx.is_restricted = false)
    (hns : (findShow db sid).isNone = false)
    (hid : ∀ r ∈ db.form_history, r.id < db.next_hist_id)
    (htime : ∀ r ∈ db.form_history, r.saved_at ≤ now)
    (huniq : ∀ (sid' : Nat) (k' : String),
      db.advance_data.countP (advKeyMatch sid' k') ≤ 1) :
    (save_advance db ctx sid data now).1 = .ok ∧
    (save_advance db ctx sid data now).2.advance_data =
      upsertAdvanceAll db.advance_data sid data now ∧
    (∀ k v, dictGet data k = some v →
      (save_advance db ctx sid data now).2.advance_data.filter (advKeyMatch sid k) =
        [⟨sid, k, v, now⟩]) ∧
    (∀ (sid' : Nat) (k' : String),
      (save_advance db ctx sid data now).2.advance_data.countP
        (advKeyMatch sid' k') ≤ 1) ∧
    (∀ v, dictGet data "show_name" = some v → v ≠ "" →
      (findShow (save_advance db ctx sid data now).2 sid).map (·.name) = some v) ∧
    (∀ v, dictGet data "show_date" = some v →
      (findShow (save_advance db ctx sid data now).2 sid).map (·.show_date) =
        some (if v = "" then none else some v)) ∧
    (∀ v, dictGet data "show_time" = some v →
      (findShow (save_advance db ctx sid data now).2 sid).map (·.show_time) = some v) ∧
    (∀ v, dictGet data "venue" = some v →
      (findShow (save_advance db ctx sid data now).2 sid).map (·.venue) = some v) ∧
    lastSavedBy (save_advance db ctx sid data now).2 sid = some ctx.user_id ∧
    (findShow (save_advance db ctx sid data now).2 sid).map (·.last_saved_at) =
      some (some now) ∧
    (⟨db.next_hist_id, sid, "advance", some ctx.user_id, now,
      { advance_data := some data }⟩ : HistRow) ∈
      (save_advance db ctx sid data now).2.form_history := by
  have hsome : (findShow db sid).isSome = true := by
    rcases hfind : findShow db sid with - | s
    · rw [hfind] at hns; cases hns
    · rfl
  have hstep : save_advance db ctx sid data now =
      (.ok, snapshotFormHistory
        (updateShow (mirrorCoreFields
            { db with advance_data := upsertAdvanceAll db.advance_data sid data now }
            sid data now) sid
          (fun s => { s with last_saved_by := some ctx.user_id,
                             last_saved_at := some now }))
        sid "advance" (some ctx.user_id) { advance_data := some data } now) := by
    unfold save_advance
    rw [hacc, hro, hns]
    rfl
  rw [hstep]
  set db1 : DB :=
    { db with advance_data := upsertAdvanceAll db.advance_data sid data now } with hdb1
  set db5 : DB := mirrorCoreFields db1 sid data now with hdb5
  set db6 : DB := updateShow db5 sid
    (fun s => { s with last_saved_by := some ctx.user_id,
                       last_saved_at := some now }) with hdb6
  have hadv6 : db6.advance_data = upsertAdvanceAll db.advance_data sid data now := by
    show db5.advance_data = _
    rw [hdb5, advance_data_mirrorCoreFields]
  have hsome5 : (findShow db5 sid).isSome = true := by
    rw [hdb5, isSome_mirrorCoreFields]
    exact hsome
  have hsome6 : (findShow db6 sid).isSome = true := by
    rw [hdb6, findShow_isSome_updateShow]
    · exact hsome5
    · intro s; rfl
  have hfh6 : db6.form_history = db.form_history := by
    show db5.form_history = _
    rw [hdb5, (form_history_mirrorCoreFields _ _ _ _).1]
  have hnid6 : db6.next_hist_id = db.next_hist_id := by
    show db5.next_hist_id = _
    rw [hdb5, (form_history_mirrorCoreFields _ _ _ _).2]
  have hsnapAdv : (snapshotFormHistory db6 sid "advance" (some ctx.user_id)
      { advance_data := some data } now).advance_data = db6.advance_data := rfl
  have hsnapShows : ∀ sid', findShow (snapshotFormHistory db6 sid "advance"
      (some ctx.user_id) { advance_data := some data } now) sid' =
      findShow db6 sid' := fun _ => rfl
  refine ⟨rfl, ?_, ?_, ?_, ?_, ?_, ?_, ?_, ?_, ?_, ?_⟩
  · show (snapshotFormHistory db6 _ _ _ _ _).advance_data = _
    rw [hsnapAdv, hadv6]
  · intro k v hkv
    show ((snapshotFormHistory db6 _ _ _ _ _).advance_data).filter _ = _
    rw [hsnapAdv, hadv6]
    exact filter_upsertAdvanceAll_mem sid now data db.advance_data k v hkv
  · intro sid' k'
    show ((snapshotFormHistory db6 _ _ _ _ _).advance_data).countP _ ≤ 1
    rw [hsnapAdv, hadv6]
    exact countP_upsertAdvanceAll_le sid now sid' k' data db.advance_data (huniq sid' k')
  · intro v hv hvne
    rw [hsnapShows]
    rw [hdb6, findShow_map_of_preserve]
    · rw [hdb5]
      unfold mirrorCoreFields
      rw [map_name_mirrorVenue, map_name_mirrorTime, map_name_mirrorDate]
      unfold mirrorName
      simp only [hv]
      rw [if_pos hvne]
      rw [findShow_updateShow_self]
      · obtain ⟨s1, hs1⟩ := Option.isSome_iff_exists.mp
          (show (findShow db1 sid).isSome = true from hsome)
        rw [hs1]
        rfl
      · intro s; rfl
    · intro s; rfl
    · intro s; rfl
  · intro v hv
    rw [hsnapShows]
    rw [hdb6, findShow_map_of_preserve]
    · rw [hdb5]
      unfold mirrorCoreFields
      rw [map_date_mirrorVenue, map_date_mirrorTime]
      unfold mirrorDate
      simp only [hv]
      rw [findShow_updateShow_self]
      · have hsomeN : (findShow (mirrorName db1 sid data now) sid).isSome = true := by
          rw [isSome_mirrorName]; exact hsome
        obtain ⟨s2, hs2⟩ := Option.isSome_iff_exists.mp hsomeN
        rw [hs2]
        rfl
      · intro s; rfl
    · intro s; rfl
    · intro s; rfl
  · intro v hv
    rw [hsnapShows]
    rw [hdb6, findShow_map_of_preserve]
    · rw [hdb5]
      unfold mirrorCoreFields
      rw [map_time_mirrorVenue]
      unfold mirrorTime
      simp only [hv]
      rw [findShow_updateShow_self]
      · have hsomeD : (findShow (mirrorDate (mirrorName db1 sid data now)
            sid data now) sid).isSome = true := by
          rw [isSome_mirrorDate, isSome_mirrorName]; exact hsome
        obtain ⟨s3, hs3⟩ := Option.isSome_iff_exists.mp hsomeD
        rw [hs3]
        rfl
      · intro s; rfl
    · intro s; rfl
    · intro s; rfl
  · intro v hv
    rw [hsnapShows]
    rw [hdb6, findShow_map_of_preserve]
    · rw [hdb5]
      unfold mirrorCoreFields
      unfold mirrorVenue
      simp only [hv]
      rw [findShow_updateShow_self]
      · have hsomeT : (findShow (mirrorTime (mirrorDate (mirrorName db1 sid data now)
            sid data now) sid data now) sid).isSome = true := by
          rw [isSome_mirrorTime, isSome_mirrorDate, isSome_mirrorName]; exact hsome
        obtain ⟨s4, hs4⟩ := Option.isSome_iff_exists.mp hsomeT
        rw [hs4]
        rfl
      · intro s; rfl
    · intro s; rfl
    · intro s; rfl
  · show lastSavedBy (snapshotFormHistory db6 _ _ _ _ _) sid = _
    have heq : lastSavedBy (snapshotFormHistory db6 sid "advance" (some ctx.user_id)
        { advance_data := some data } now) sid = lastSavedBy db6 sid := rfl
    rw [heq, hdb6]
    exact lastSavedBy_stamp db5 sid ctx.user_id now hsome5
  · rw [hsnapShows]
    rw [hdb6, findShow_updateShow_self]
    · obtain ⟨s5, hs5⟩ := Option.isSome_iff_exists.mp hsome5
      rw [hs5]
      rfl
    · intro s; rfl
  · show _ ∈ (snapshotFormHistory db6 _ _ _ _ _).form_history
    have hmem := snapshot_row_mem db6 sid "advance" (some ctx.user_id)
      { advance_data := some data } now
      (by rw [hfh6, hnid6]; exact hid) (by rw [hfh6]; exact htime)
    rw [hnid6] at hmem
    exact hmem

/-- Closed witness for `save_advance_spec`: saving `{venue: "Old Hall"}` on
`dbC5` leaves one `venue` row stamped 7, mirrors the venue onto the show,
stamps `last_saved_by/at`, and records the snapshot. -/
theorem save_advance_spec_witness :
    (save_advance dbC5 ⟨1, false⟩ 1 [("venue", "Old Hall")] 7).2.advance_data.filter
        (advKeyMatch 1 "venue") = [⟨1, "venue", "Old Hall", 7⟩] ∧
    (findShow (save_advance dbC5 ⟨1, false⟩ 1 [("venue", "Old Hall")] 7).2 1).map
        (·.venue) = some "Old Hall" ∧
    lastSavedBy (save_advance dbC5 ⟨1, false⟩ 1 [("venue", "Old Hall")] 7).2 1 =
      some 1 ∧
    (⟨0, 1, "advance", some 1, 7,
      { advance_data := some [("venue", "Old Hall")] }⟩ : HistRow) ∈
      (save_advance dbC5 ⟨1, false⟩ 1 [("venue", "Old Hall")] 7).2.form_history := by
  obtain ⟨hok, hall, hone, huq, hnm, hdt, htm, hvn, hlsb, hlsa, hsnap⟩ :=
    save_advance_spec dbC5 ⟨1, false⟩ 1 [("venue", "Old Hall")] 7
      (by decide) rfl (by decide) (by decide) (by decide)
      (fun sid' k' => by simp [dbC5])
  exact ⟨hone "venue" "Old Hall" (by decide), hvn "Old Hall" (by decide), hlsb, hsnap⟩

/-- A permitted advance save writes exactly the payload's upserts into
`advance_data` (the mirror, stamp and snapshot steps leave it alone). -/
theorem advance_data_save_advance (db : DB) (ctx : Ctx) (sid : Nat)
    (data : List (String × String)) (now : Nat)
    (hacc : can_access_show db ctx.user_id sid = true)
    (hro : ctx.is_restricted = false)
    (hns : (findShow db sid).isNone = false) :
    (save_advance db ctx sid data now).2.advance_data =
      upsertAdvanceAll db.advance_data sid data now :=
  calc (save_advance db ctx sid data now).2.advance_data
      = (mirrorCoreFields
          { db with advance_data := upsertAdvanceAll db.advance_data sid data now }
          sid data now).advance_data := by
        unfold save_advance
        rw [hacc, hro, hns]
        rfl
    _ = upsertAdvanceAll db.advance_data sid data now := by
        rw [advance_data_mirrorCoreFields]

/-- Concrete database for the restore theorems: show 1 currently has venue
`"New Hall"`; history entry 0 is an advance snapshot `{venue: "Old Hall"}`. -/
def dbC3 : DB :=
  { users := [⟨1, "admin"⟩], user_groups := [], user_group_members := [],
    show_group_access := [],
    shows := [⟨1, "S", none, "", "New Hall", none, none, 0⟩],
    advance_data := [⟨1, "venue", "New Hall", 2⟩],
    schedule_rows := [], schedule_meta := [], post_show_notes := [],
    form_history := [⟨0, 1, "advance", some 1, 2,
      { advance_data := some [("venue", "Old Hall")] }⟩],
    active_sessions := [], show_performances := [], next_hist_id := 1 }

/-- **C3, counterexample.** Restoring the advance snapshot
`{advance_data: {venue: "Old Hall"}}` does not mirror `venue` onto the Show
entity's own column (the show keeps `"New Hall"`), whereas a live save of the
same payload does mirror it — so the restore write path is not identical to
the live path on the Show columns. -/
theorem restore_mirror_counterexample :
    (findShow (restore_history dbC3 ⟨1, false⟩ 1 0 9).2 1).map (·.venue) =
        some "New Hall" ∧
    (findShow (save_advance dbC3 ⟨1, false⟩ 1 [("venue", "Old Hall")] 9).2 1).map
        (·.venue) = some "Old Hall" ∧
    some "New Hall" ≠ some "Old Hall" := by
  refine ⟨by decide, by decide, by decide⟩

/-- **C3, amended.** A permitted restore replays the stored payload through
the identical field-value upsert logic used by a live save of that form_type
— yielding the very same field-value table contents a live save of that
payload would yield (`advance_data` for advance snapshots, `schedule_meta`
and `schedule_rows` for schedule snapshots, `post_show_notes` for post-notes
snapshots) — and then re-stamps `Show.last_saved_by/at` to the restoring user
and instant; the Show entity's own core columns are not re-mirrored. -/
theorem restore_replay_spec (db : DB) (ctx : Ctx) (sid hist_id : Nat)
    (now : Nat) (entry : HistRow)
    (hacc : can_access_show db ctx.user_id sid = true)
    (hro : ctx.is_restricted = false)
    (hentry : db.form_history.find?
      (fun r => r.id == hist_id && r.show_id == sid) = some entry)
    (hns : (findShow db sid).isNone = false) :
    (restore_history db ctx sid hist_id now).1 = .ok ∧
    (entry.form_type = "advance" →
      (restore_history db ctx sid hist_id now).2.advance_data =
        (save_advance db ctx sid (entry.snapshot.advance_data.getD []) now).2.advance_data) ∧
    (entry.form_type = "schedule" →
      (restore_history db ctx sid hist_id now).2.schedule_meta =
        (save_schedule db ctx sid
          ⟨entry.snapshot.meta, entry.snapshot.rows⟩ now).2.schedule_meta ∧
      (restore_history db ctx sid hist_id now).2.schedule_rows =
        (save_schedule db ctx sid
          ⟨entry.snapshot.meta, entry.snapshot.rows⟩ now).2.schedule_rows) ∧
    (entry.form_type = "postnotes" →
      (restore_history db ctx sid hist_id now).2.post_show_notes =
        (save_postnotes db ctx sid
          (entry.snapshot.notes_data.getD []) now).2.post_show_notes) ∧
    lastSavedBy (restore_history db ctx sid hist_id now).2 sid = some ctx.user_id ∧
    (findShow (restore_history db ctx sid hist_id now).2 sid).map (·.last_saved_at) =
      some (some now) := by
  have hsome : (findShow db sid).isSome = true := by
    rcases hfind : findShow db sid with - | s
    · rw [hfind] at hns; cases hns
    · rfl
  have hred : restore_history db ctx sid hist_id now =
      (.ok, updateShow (restoreDispatch db sid entry now) sid
        (fun s => { s with last_saved_by := some ctx.user_id,
                           last_saved_at := some now })) := by
    unfold restore_history
    rw [hacc, hro]
    simp only [hentry]
    rfl
  have hshows : (restoreDispatch db sid entry now).shows = db.shows := by
    unfold restoreDispatch
    split_ifs
    · rfl
    · cases entry.snapshot.meta <;> cases entry.snapshot.rows <;> rfl
    · rfl
    · rfl
  have hsomeD : (findShow (restoreDispatch db sid entry now) sid).isSome = true := by
    unfold findShow
    rw [hshows]
    exact hsome
  rw [hred]
  refine ⟨rfl, ?_, ?_, ?_, ?_, ?_⟩
  · intro hft
    show (restoreDispatch db sid entry now).advance_data = _
    rw [advance_data_save_advance db ctx sid _ now hacc hro hns]
    unfold restoreDispatch
    rw [if_pos hft]
  · intro hft
    have hne1 : ¬ entry.form_type = "advance" := by rw [hft]; decide
    have hsave : save_schedule db ctx sid
        ⟨entry.snapshot.meta, entry.snapshot.rows⟩ now =
        (.ok, snapshotFormHistory (updateShow (updateShow
          (schedDispatch db sid entry.snapshot.meta entry.snapshot.rows) sid
            (fun s => { s with updated_at := now })) sid
            (fun s => { s with last_saved_by := some ctx.user_id,
                               last_saved_at := some now }))
          sid "schedule" (some ctx.user_id)
          { meta := entry.snapshot.meta, rows := entry.snapshot.rows } now) := by
      unfold save_schedule
      rw [hacc, hro, hns]
      rfl
    constructor
    · show (restoreDispatch db sid entry now).schedule_meta = _
      rw [hsave]
      show _ = (schedDispatch db sid entry.snapshot.meta entry.snapshot.rows).schedule_meta
      unfold restoreDispatch schedDispatch
      rw [if_neg hne1, if_pos hft]
    · show (restoreDispatch db sid entry now).schedule_rows = _
      rw [hsave]
      show _ = (schedDispatch db sid entry.snapshot.meta entry.snapshot.rows).schedule_rows
      unfold restoreDispatch schedDispatch
      rw [if_neg hne1, if_pos hft]
  · intro hft
    have hne1 : ¬ entry.form_type = "advance" := by rw [hft]; decide
    have hne2 : ¬ entry.form_type = "schedule" := by rw [hft]; decide
    show (restoreDispatch db sid entry now).post_show_notes = _
    have hsave : (save_postnotes db ctx sid
        (entry.snapshot.notes_data.getD []) now).2.post_show_notes =
        upsertKVAll db.post_show_notes sid (entry.snapshot.notes_data.getD []) := by
      unfold save_postnotes
      rw [hacc, hro, hns]
      rfl
    rw [hsave]
    unfold restoreDispatch
    rw [if_neg hne1, if_neg hne2, if_pos hft]
  · show lastSavedBy (updateShow (restoreDispatch db sid entry now) sid _) sid = _
    exact lastSavedBy_stamp _ sid ctx.user_id now hsomeD
  · rw [findShow_updateShow_self]
    · obtain ⟨s0, hs0⟩ := Option.isSome_iff_exists.mp hsomeD
      rw [hs0]
      rfl
    · intro s; rfl

/-! ## Helper lemmas for the sync cursor -/

theorem listMax_cons_eq (a : Nat) (l : List Nat) :
    listMax (a :: l) = match listMax l with
      | none => some a
      | some m => some (if a ≤ m then m else a) := rfl

theorem listMax_cons_none {a : Nat} {l : List Nat} (h : listMax l = none) :
    listMax (a :: l) = some a := by
  rw [listMax_cons_eq, h]

theorem listMax_cons_some {a : Nat} {l : List Nat} {m : Nat}
    (h : listMax l = some m) :
    listMax (a :: l) = some (if a ≤ m then m else a) := by
  rw [listMax_cons_eq, h]

theorem listMax_ne_none (b : Nat) (bs : List Nat) : listMax (b :: bs) ≠ none := by
  intro hcontra
  cases hl : listMax bs with
  | none => rw [listMax_cons_none hl] at hcontra; cases hcontra
  | some m => rw [listMax_cons_some hl] at hcontra; cases hcontra

theorem listMax_le_mem : ∀ {l : List Nat} {m : Nat}, listMax l = some m →
    ∀ x ∈ l, x ≤ m
  | [], m, h => by cases h
  | a :: l, m, h => by
    intro x hx
    cases hl : listMax l with
    | none =>
      rw [listMax_cons_none hl] at h
      have ham : a = m := Option.some.inj h
      cases l with
      | nil =>
        rcases List.mem_singleton.mp hx with rfl
        omega
      | cons b bs => exact absurd hl (listMax_ne_none b bs)
    | some mt =>
      rw [listMax_cons_some hl] at h
      have ham : (if a ≤ mt then mt else a) = m := Option.some.inj h
      have hbound : a ≤ m ∧ mt ≤ m := by
        by_cases hc : a ≤ mt
        · rw [if_pos hc] at ham; omega
        · rw [if_neg hc] at ham; omega
      rcases List.mem_cons.mp hx with rfl | hx'
      · exact hbound.1
      · exact le_trans (listMax_le_mem hl x hx') hbound.2

theorem listMax_mem : ∀ {l : List Nat} {m : Nat}, listMax l = some m → m ∈ l
  | [], m, h => by cases h
  | a :: l, m, h => by
    cases hl : listMax l with
    | none =>
      rw [listMax_cons_none hl] at h
      have ham : a = m := Option.some.inj h
      rw [← ham]
      exact List.mem_cons_self _ _
    | some mt =>
      rw [listMax_cons_some hl] at h
      have hm : (if a ≤ mt then mt else a) = m := Option.some.inj h
      by_cases hle : a ≤ mt
      · rw [if_pos hle] at hm
        rw [← hm]
        exact List.mem_cons_of_mem _ (listMax_mem hl)
      · rw [if_neg hle] at hm
        rw [← hm]
        exact List.mem_cons_self _ _

theorem listMax_isSome_of_mem {l : List Nat} {x : Nat} (hx : x ∈ l) :
    ∃ m, listMax l = some m ∧ x ≤ m := by
  cases hl : listMax l with
  | none =>
    cases l with
    | nil => cases hx
    | cons b bs => exact absurd hl (listMax_ne_none b bs)
  | some m => exact ⟨m, rfl, listMax_le_mem hl x hx⟩

theorem maxUpdatedAt_none_iff (db : DB) (sid : Nat) :
    maxUpdatedAt db sid = none ↔ advRowsOf db sid = [] := by
  unfold maxUpdatedAt
  cases h : advRowsOf db sid with
  | nil => simp [listMax]
  | cons a l =>
    simp only [List.map_cons]
    constructor
    · intro hc; exact absurd hc (listMax_ne_none _ _)
    · intro hc; cases hc

theorem mem_upsertAdvance {rows : List AdvRow} {sid : Nat} {k v : String}
    {now : Nat} {r : AdvRow} (h : r ∈ upsertAdvance rows sid k v now) :
    r ∈ rows ∨ r.updated_at = now := by
  unfold upsertAdvance at h
  rcases List.mem_append.mp h with h | h
  · exact Or.inl (List.mem_filter.mp h).1
  · rcases List.mem_singleton.mp h with rfl
    exact Or.inr rfl

theorem mem_upsertAdvanceAll {sid : Nat} {now : Nat} :
    ∀ (kvs : List (String × String)) {rows : List AdvRow} {r : AdvRow},
      r ∈ upsertAdvanceAll rows sid kvs now → r ∈ rows ∨ r.updated_at = now
  | [], _, _, h => Or.inl h
  | kv :: rest, rows, r, h => by
    unfold upsertAdvanceAll at h
    simp only [List.foldl_cons] at h
    rcases mem_upsertAdvanceAll rest h with h' | h'
    · exact mem_upsertAdvance h'
    · exact Or.inr h'

theorem exists_now_row (rows : List AdvRow) (sid : Nat)
    (kvs : List (String × String)) (now : Nat) (h : kvs ≠ []) :
    ∃ r ∈ upsertAdvanceAll rows sid kvs now,
      r.show_id = sid ∧ r.updated_at = now := by
  rcases List.eq_nil_or_concat kvs with rfl | ⟨init, last, rfl⟩
  · exact absurd rfl h
  · unfold upsertAdvanceAll
    rw [List.concat_eq_append, List.foldl_append]
    refine ⟨⟨sid, last.1, last.2, now⟩, ?_, rfl, rfl⟩
    simp only [List.foldl_cons, List.foldl_nil]
    unfold upsertAdvance
    exact List.mem_append_right _ (List.mem_singleton.mpr rfl)

theorem filter_upsertAdvance_other_show (sid₀ sid₂ : Nat) (hne : sid₂ ≠ sid₀)
    (rows : List AdvRow) (k v : String) (now : Nat) :
    (upsertAdvance rows sid₂ k v now).filter (fun r => r.show_id == sid₀) =
      rows.filter (fun r => r.show_id == sid₀) := by
  unfold upsertAdvance
  rw [List.filter_append, List.filter_filter]
  have hnew : ((⟨sid₂, k, v, now⟩ : AdvRow).show_id == sid₀) = false := by
    simpa using hne
  have hpred : (fun r : AdvRow =>
      (r.show_id == sid₀) && !(r.show_id == sid₂ && r.field_key == k)) =
      (fun r : AdvRow => r.show_id == sid₀) := by
    funext r
    by_cases h0 : r.show_id = sid₀
    · have h2 : (r.show_id == sid₂) = false := by
        simp only [beq_eq_false_iff_ne]
        rw [h0]
        exact fun hc => hne hc.symm
      have hb : (r.show_id == sid₀) = true := by simpa using h0
      rw [hb, h2]
      rfl
    · have hb : (r.show_id == sid₀) = false := by simpa using h0
      rw [hb]
      rfl
  rw [hpred]
  simp [hnew]

theorem filter_upsertAdvanceAll_other_show (sid₀ sid₂ : Nat) (hne : sid₂ ≠ sid₀)
    (now : Nat) :
    ∀ (kvs : List (String × String)) (rows : List AdvRow),
      (upsertAdvanceAll rows sid₂ kvs now).filter (fun r => r.show_id == sid₀) =
        rows.filter (fun r => r.show_id == sid₀)
  | [], _ => rfl
  | kv :: rest, rows => by
    unfold upsertAdvanceAll
    simp only [List.foldl_cons]
    rw [show (rest.foldl (fun acc kv => upsertAdvance acc sid₂ kv.1 kv.2 now)
        (upsertAdvance rows sid₂ kv.1 kv.2 now)) =
        upsertAdvanceAll (upsertAdvance rows sid₂ kv.1 kv.2 now) sid₂ rest now from rfl]
    rw [filter_upsertAdvanceAll_other_show sid₀ sid₂ hne now rest _]
    exact filter_upsertAdvance_other_show sid₀ sid₂ hne rows kv.1 kv.2 now

theorem timesOk_step {w w' : World} (hs : Step w w') (h : TimesOk w) :
    TimesOk w' := by
  cases hs with
  | upsert db' sid₂ kvs now hclk hadv =>
    intro r hr
    rw [hadv] at hr
    rcases mem_upsertAdvanceAll kvs hr with h' | h'
    · exact le_trans (h r h') hclk
    · rw [h']
  | deleteShow db' sid₂ now hclk hadv =>
    intro r hr
    rw [hadv] at hr
    exact le_trans (h r (List.mem_filter.mp hr).1) hclk
  | frame db' now hclk hadv =>
    intro r hr
    rw [hadv] at hr
    exact le_trans (h r hr) hclk

theorem goodCursor_step {w w' : World} {sid : Nat} {c : Option Nat}
    (hs : Step w w') (h : GoodCursor w sid c) : GoodCursor w' sid c := by
  refine ⟨timesOk_step hs h.1, ?_⟩
  intro x hx
  obtain ⟨hxc, hmax⟩ := h.2 x hx
  cases hs with
  | upsert db' sid₂ kvs now hclk hadv =>
    refine ⟨le_trans hxc hclk, ?_⟩
    intro hne
    by_cases hsid : sid₂ = sid
    · rw [hsid] at hadv
      cases hkvs : kvs with
      | nil =>
        have hsame : db'.advance_data = w.db.advance_data := by
          rw [hadv, hkvs]; rfl
        have h1 : advRowsOf db' sid = advRowsOf w.db sid := by
          unfold advRowsOf; rw [hsame]
        have h2 : maxUpdatedAt db' sid = maxUpdatedAt w.db sid := by
          unfold maxUpdatedAt; rw [h1]
        rw [h1] at hne
        rw [h2]
        exact hmax hne
      | cons a as =>
        obtain ⟨r, hrmem, hrsid, hrnow⟩ :=
          exists_now_row w.db.advance_data sid kvs now (by rw [hkvs]; simp)
        have hrin : r ∈ advRowsOf db' sid := by
          unfold advRowsOf
          rw [hadv]
          exact List.mem_filter.mpr ⟨hrmem, by simpa using hrsid⟩
        obtain ⟨m, hm, hle⟩ := listMax_isSome_of_mem
          (List.mem_map_of_mem (·.updated_at) hrin)
        refine ⟨m, hm, ?_⟩
        have hle' : r.updated_at ≤ m := hle
        omega
    · have h1 : advRowsOf db' sid = advRowsOf w.db sid := by
        unfold advRowsOf
        rw [hadv]
        exact filter_upsertAdvanceAll_other_show sid sid₂ hsid now kvs _
      have h2 : maxUpdatedAt db' sid = maxUpdatedAt w.db sid := by
        unfold maxUpdatedAt; rw [h1]
      rw [h1] at hne
      rw [h2]
      exact hmax hne
  | deleteShow db' sid₂ now hclk hadv =>
    refine ⟨le_trans hxc hclk, ?_⟩
    intro hne
    by_cases hsid : sid₂ = sid
    · exfalso
      apply hne
      unfold advRowsOf
      rw [hadv, List.filter_filter]
      apply List.filter_eq_nil_iff.mpr
      intro a _
      subst hsid
      cases ha : a.show_id == sid₂ <;> simp [ha]
    · have h1 : advRowsOf db' sid = advRowsOf w.db sid := by
        unfold advRowsOf
        rw [hadv, List.filter_filter]
        congr 1
        funext r
        by_cases h0 : r.show_id = sid
        · have hf : (r.show_id == sid₂) = false := by
            simp only [beq_eq_false_iff_ne]
            rw [h0]
            exact fun hc => hsid hc.symm
          have hb : (r.show_id == sid) = true := by simpa using h0
          rw [hb, hf]
          rfl
        · have hb : (r.show_id == sid) = false := by simpa using h0
          rw [hb]
          rfl
      have h2 : maxUpdatedAt db' sid = maxUpdatedAt w.db sid := by
        unfold maxUpdatedAt; rw [h1]
      rw [h1] at hne
      rw [h2]
      exact hmax hne
  | frame db' now hclk hadv =>
    refine ⟨le_trans hxc hclk, ?_⟩
    intro hne
    have h1 : advRowsOf db' sid = advRowsOf w.db sid := by
      unfold advRowsOf; rw [hadv]
    have h2 : maxUpdatedAt db' sid = maxUpdatedAt w.db sid := by
      unfold maxUpdatedAt; rw [h1]
    rw [h1] at hne
    rw [h2]
    exact hmax hne

theorem goodCursor_evolves {w w' : World} {sid : Nat} {c : Option Nat}
    (hE : Evolves w w') (h : GoodCursor w sid c) : GoodCursor w' sid c := by
  induction hE with
  | refl => exact h
  | tail hsteps hstep ih => exact goodCursor_step hstep ih

theorem cursorLe_refl (c : Option Nat) : cursorLe c c := by
  cases c with
  | none => trivial
  | some x => exact Nat.le_refl x

theorem goodCursor_sync (w : World) (sid : Nat) (c : Option Nat)
    (h : GoodCursor w sid c) :
    cursorLe c (syncCursor w.db sid c) ∧
      GoodCursor w sid (syncCursor w.db sid c) := by
  cases hmax : maxUpdatedAt w.db sid with
  | none =>
    unfold syncCursor
    rw [hmax]
    exact ⟨cursorLe_refl c, h⟩
  | some m =>
    unfold syncCursor
    rw [hmax]
    have hnotnil : advRowsOf w.db sid ≠ [] := by
      intro hnil
      rw [(maxUpdatedAt_none_iff w.db sid).mpr hnil] at hmax
      cases hmax
    have hmax' : listMax ((advRowsOf w.db sid).map (·.updated_at)) = some m := hmax
    obtain ⟨r, hrin, hrm⟩ := List.mem_map.mp (listMax_mem hmax')
    have hmclock : m ≤ w.clock := by
      rw [← hrm]
      exact h.1 r (List.mem_filter.mp hrin).1
    constructor
    · cases hc : c with
      | none => trivial
      | some x =>
        obtain ⟨-, hmax2⟩ := h.2 x hc
        obtain ⟨m', hm', hxm'⟩ := hmax2 hnotnil
        rw [hmax] at hm'
        have hmm : m' = m := by cases hm'; rfl
        show x ≤ m
        omega
    · refine ⟨h.1, ?_⟩
      intro x hx
      have hxm : m = x := Option.some.inj hx
      rw [← hxm]
      exact ⟨hmclock, fun _ => ⟨m, hmax, Nat.le_refl m⟩⟩

theorem cursorTrace_head (sid : Nat) (c : Option Nat) (ws : List World) :
    (cursorTrace sid c ws).head? = some c := by
  cases ws <;> rfl

theorem cursorTrace_chain (sid : Nat) :
    ∀ (ws : List World) (w : World) (c : Option Nat),
      GoodCursor w sid c → List.Chain Evolves w ws →
      List.Chain' cursorLe (cursorTrace sid c ws)
  | [], w, c, hg, hch => by simp [cursorTrace]
  | w1 :: rest, w, c, hg, hch => by
    cases hch with
    | cons hE hch' =>
      have hg1 : GoodCursor w1 sid c := goodCursor_evolves hE hg
      obtain ⟨hle, hg1'⟩ := goodCursor_sync w1 sid c hg1
      show List.Chain' cursorLe (c :: cursorTrace sid (syncCursor w1.db sid c) rest)
      apply List.chain'_cons'.mpr
      refine ⟨?_, cursorTrace_chain sid rest w1 _ hg1' hch'⟩
      intro h hh
      simp only [cursorTrace_head, Option.mem_def, Option.some.injEq] at hh
      rw [← hh]
      exact hle

/-- **C8.** The cursor returned by a sync call equals the maximum
`updated_at` across the show's advance rows, or echoes the submitted cursor
when the show has none; and along any run of the system — arbitrary
interleaved upserts (always stamped at the current, non-decreasing wall
clock), whole-show deletions, and unrelated requests — a client that starts
from the empty first-poll cursor and feeds each returned cursor into its next
call sees a monotonically non-decreasing cursor sequence. -/
theorem sync_cursor_spec (sid : Nat) :
    (∀ (db : DB) (since : Option Nat) (m : Nat),
      maxUpdatedAt db sid = some m → syncCursor db sid since = some m) ∧
    (∀ (db : DB) (since : Option Nat),
      advRowsOf db sid = [] → syncCursor db sid since = since) ∧
    (∀ (w0 : World) (ws : List World),
      TimesOk w0 → List.Chain Evolves w0 ws →
      List.Chain' cursorLe (cursorTrace sid none ws)) := by
  refine ⟨?_, ?_, ?_⟩
  · intro db since m h
    unfold syncCursor
    rw [h]
  · intro db since h
    unfold syncCursor
    rw [(maxUpdatedAt_none_iff db sid).mpr h]
  · intro w0 ws ht hch
    exact cursorTrace_chain sid ws w0 none ⟨ht, fun x hx => by cases hx⟩ hch

/-- Concrete world for the cursor witness: one advance row stamped 5 at
clock 10. -/
def dbC8a : DB :=
  { users := [⟨1, "admin"⟩], user_groups := [], user_group_members := [],
    show_group_access := [],
    shows := [⟨1, "S", none, "", "Hall", none, none, 0⟩],
    advance_data := [⟨1, "venue", "X", 5⟩],
    schedule_rows := [], schedule_meta := [], post_show_notes := [],
    form_history := [], active_sessions := [], show_performances := [],
    next_hist_id := 0 }

def wC8a : World := ⟨dbC8a, 10⟩

/-- The world after an upsert of `venue` at clock 20. -/
def dbC8b : DB :=
  { dbC8a with advance_data :=
      upsertAdvanceAll dbC8a.advance_data 1 [("venue", "Y")] 20 }

def wC8b : World := ⟨dbC8b, 20⟩

/-- Closed witness for `sync_cursor_spec`: polling before and after the
clock-20 upsert yields the non-decreasing cursor trace
`["", 5, 20]`, and the first poll's cursor is the maximum stamp 5. -/
theorem sync_cursor_spec_witness :
    TimesOk wC8a ∧
    List.Chain' cursorLe (cursorTrace 1 none [wC8a, wC8b]) ∧
    cursorTrace 1 none [wC8a, wC8b] = [none, some 5, some 20] := by
  have ht : TimesOk wC8a := by
    intro r hr
    rcases List.mem_singleton.mp hr with rfl
    decide
  have hch : List.Chain Evolves wC8a [wC8a, wC8b] :=
    List.Chain.cons Relation.ReflTransGen.refl
      (List.Chain.cons
        (Relation.ReflTransGen.single
          (Step.upsert wC8a dbC8b 1 [("venue", "Y")] 20 (by decide) rfl))
        List.Chain.nil)
  exact ⟨ht, (sync_cursor_spec 1).2.2 wC8a [wC8a, wC8b] ht hch, by decide⟩

/-- Closed witness for `restore_replay_spec`: restoring the stored
`{advance_data: {venue: "Old Hall"}}` snapshot makes the live advance field
`venue` equal `"Old Hall"` again and stamps `last_saved_by` to the restoring
user 1. -/
theorem restore_replay_spec_witness :
    (restore_history dbC3 ⟨1, false⟩ 1 0 9).2.advance_data.filter
        (advKeyMatch 1 "venue") = [⟨1, "venue", "Old Hall", 9⟩] ∧
    lastSavedBy (restore_history dbC3 ⟨1, false⟩ 1 0 9).2 1 = some 1 := by
  obtain ⟨hok, hadv, hsch, hpn, hlsb, hlsa⟩ :=
    restore_replay_spec dbC3 ⟨1, false⟩ 1 0 9
      ⟨0, 1, "advance", some 1, 2, { advance_data := some [("venue", "Old Hall")] }⟩
      (by decide) rfl (by decide) (by decide)
  exact ⟨by decide, hlsb⟩

/-! ## Helper lemmas for the history retention bound -/

/-- One `_snapshot_form_history` call on a table whose rows all belong to the
target `(show_id, form_type)`, with distinct ids below the `AUTOINCREMENT`
counter and stamps at most the current instant: the table gains the new row,
is pruned to the 50 retention-greatest rows, every surviving row dominates
every discarded one in `saved_at`, and all invariants are re-established. -/
theorem snapshot_step (db : DB) (sid : Nat) (ft : String) (uid : Option Nat)
    (snap : SnapJson) (now : Nat)
    (hpair : ∀ r ∈ db.form_history, r.show_id = sid ∧ r.form_type = ft)
    (hidlt : ∀ r ∈ db.form_history, r.id < db.next_hist_id)
    (hnodup : (db.form_history.map (·.id)).Nodup)
    (htime : ∀ r ∈ db.form_history, r.saved_at ≤ now) :
    (snapshotFormHistory db sid ft uid snap now).form_history.length =
      min (db.form_history.length + 1) 50 ∧
    (∀ r ∈ (snapshotFormHistory db sid ft uid snap now).form_history,
      r = ⟨db.next_hist_id, sid, ft, uid, now, snap⟩ ∨ r ∈ db.form_history) ∧
    (∀ k ∈ (snapshotFormHistory db sid ft uid snap now).form_history, ∀ d : HistRow,
      (d = ⟨db.next_hist_id, sid, ft, uid, now, snap⟩ ∨ d ∈ db.form_history) →
      d ∉ (snapshotFormHistory db sid ft uid snap now).form_history →
      d.saved_at ≤ k.saved_at) ∧
    (∀ r ∈ (snapshotFormHistory db sid ft uid snap now).form_history,
      r.show_id = sid ∧ r.form_type = ft) ∧
    (∀ r ∈ (snapshotFormHistory db sid ft uid snap now).form_history,
      r.id < (snapshotFormHistory db sid ft uid snap now).next_hist_id) ∧
    (((snapshotFormHistory db sid ft uid snap now).form_history.map (·.id)).Nodup) ∧
    (∀ r ∈ (snapshotFormHistory db sid ft uid snap now).form_history,
      r.saved_at ≤ now) ∧
    (⟨db.next_hist_id, sid, ft, uid, now, snap⟩ : HistRow) ∈
      (snapshotFormHistory db sid ft uid snap now).form_history := by
  set newRow : HistRow := ⟨db.next_hist_id, sid, ft, uid, now, snap⟩ with hnew
  set inserted : List HistRow := newRow :: db.form_history with hins
  set sorted : List HistRow := List.insertionSort histGE inserted with hsort
  set keep : List Nat := (sorted.take 50).map (·.id) with hkeep
  have hallpair : ∀ r ∈ inserted,
      (r.show_id == sid && r.form_type == ft) = true := by
    intro r hr
    rw [hins] at hr
    rcases List.mem_cons.mp hr with rfl | hr'
    · simp [hnew]
    · rcases hpair r hr' with ⟨h1, h2⟩
      simp [h1, h2]
  have hfilter_pair : inserted.filter
      (fun r => r.show_id == sid && r.form_type == ft) = inserted :=
    List.filter_eq_self.mpr hallpair
  have htop : topHistIds inserted sid ft = keep := by
    unfold topHistIds
    rw [hfilter_pair, ← hsort, ← hkeep]
  have hfh0 : (snapshotFormHistory db sid ft uid snap now).form_history =
      inserted.filter (fun r => !(r.show_id == sid && r.form_type == ft) ||
        (topHistIds inserted sid ft).contains r.id) := by
    rw [hins, hnew]
    rfl
  have hfh : (snapshotFormHistory db sid ft uid snap now).form_history =
      inserted.filter (fun r => keep.contains r.id) := by
    rw [hfh0, ← htop]
    exact List.filter_congr (fun r hr => by simp [hallpair r hr])
  have hperm : sorted.Perm inserted := List.perm_insertionSort histGE inserted
  have hnodupIns : (inserted.map (·.id)).Nodup := by
    rw [hins]
    simp only [List.map_cons]
    rw [List.nodup_cons]
    refine ⟨?_, hnodup⟩
    intro hmem
    obtain ⟨r, hr, hid⟩ := List.mem_map.mp hmem
    have h1 := hidlt r hr
    have h2 : r.id = db.next_hist_id := hid
    omega
  have hnodupSort : (sorted.map (·.id)).Nodup :=
    ((hperm.map (·.id)).nodup_iff).mpr hnodupIns
  have hsplit : sorted = sorted.take 50 ++ sorted.drop 50 :=
    (List.take_append_drop 50 sorted).symm
  have hSorted : List.Sorted histGE sorted := List.sorted_insertionSort histGE inserted
  have htake_p : ∀ r ∈ sorted.take 50, (keep.contains r.id) = true := by
    intro r hr
    rw [hkeep]
    simpa [List.elem_iff] using List.mem_map_of_mem (·.id) hr
  have hfilter_take : (sorted.take 50).filter (fun r => keep.contains r.id) =
      sorted.take 50 := List.filter_eq_self.mpr htake_p
  have hfilter_drop : (sorted.drop 50).filter (fun r => keep.contains r.id) = [] := by
    apply List.filter_eq_nil_iff.mpr
    intro r hr hcon
    have hidmem : r.id ∈ (sorted.take 50).map (·.id) := by
      rw [hkeep] at hcon
      simpa [List.elem_iff] using hcon
    have hmaps : ((sorted.take 50).map (·.id)) ++ ((sorted.drop 50).map (·.id)) =
        sorted.map (·.id) := by
      rw [← List.map_append, ← hsplit]
    have hnd : (((sorted.take 50).map (·.id)) ++
        ((sorted.drop 50).map (·.id))).Nodup := by
      rw [hmaps]; exact hnodupSort
    rcases List.nodup_append.mp hnd with ⟨-, -, hdisj⟩
    exact hdisj hidmem (List.mem_map_of_mem (·.id) hr)
  have hfilter_sorted : sorted.filter (fun r => keep.contains r.id) =
      sorted.take 50 := by
    conv_lhs => rw [hsplit]
    rw [List.filter_append, hfilter_take, hfilter_drop, List.append_nil]
  have hpermFh : (snapshotFormHistory db sid ft uid snap now).form_history.Perm
      (sorted.take 50) := by
    rw [hfh, ← hfilter_sorted]
    exact (hperm.filter (fun r => keep.contains r.id)).symm
  have hmemIff : ∀ r : HistRow,
      r ∈ (snapshotFormHistory db sid ft uid snap now).form_history ↔
        r ∈ sorted.take 50 := fun r => hpermFh.mem_iff
  have hS2 : ∀ r ∈ (snapshotFormHistory db sid ft uid snap now).form_history,
      r = newRow ∨ r ∈ db.form_history := by
    intro r hr
    have h1 : r ∈ inserted :=
      hperm.mem_iff.mp (List.take_subset _ _ ((hmemIff r).mp hr))
    rw [hins] at h1
    exact List.mem_cons.mp h1
  refine ⟨?_, ?_, ?_, ?_, ?_, ?_, ?_, ?_⟩
  · rw [hpermFh.length_eq, List.length_take, hperm.length_eq, hins,
      List.length_cons]
    omega
  · exact hS2
  · intro k hk d hd hdnot
    have hkTake : k ∈ sorted.take 50 := (hmemIff k).mp hk
    have hdIns : d ∈ inserted := by
      rw [hins]
      rcases hd with rfl | h
      · exact List.mem_cons_self _ _
      · exact List.mem_cons_of_mem _ h
    have hdSorted : d ∈ sorted := hperm.mem_iff.mpr hdIns
    have hdDrop : d ∈ sorted.drop 50 := by
      rcases List.mem_append.mp (hsplit ▸ hdSorted) with htk | hdr
      · exfalso
        apply hdnot
        rw [hfh]
        exact List.mem_filter.mpr ⟨hdIns, htake_p d htk⟩
      · exact hdr
    have hge : histGE k d := by
      have hpw := hsplit ▸ hSorted
      exact (List.pairwise_append.mp hpw).2.2 k hkTake d hdDrop
    rcases hge with h | ⟨h, -⟩
    · omega
    · omega
  · intro r hr
    rcases hS2 r hr with rfl | h
    · exact ⟨rfl, rfl⟩
    · exact hpair r h
  · intro r hr
    have hnid : (snapshotFormHistory db sid ft uid snap now).next_hist_id =
        db.next_hist_id + 1 := rfl
    rw [hnid]
    rcases hS2 r hr with rfl | h
    · show db.next_hist_id < db.next_hist_id + 1
      omega
    · have := hidlt r h
      omega
  · rw [hfh]
    exact hnodupIns.sublist
      ((List.filter_sublist inserted).map (fun r : HistRow => r.id))
  · intro r hr
    rcases hS2 r hr with rfl | h
    · exact Nat.le_refl now
    · exact htime r h
  · exact snapshot_row_mem db sid ft uid snap now hidlt htime

/-- One record (save) operation as seen by the History Log: the instant it
runs, the saving user, and the snapshot payload. -/
structure SaveOp where
  time : Nat
  user : Option Nat
  snap : SnapJson
  deriving Repr, DecidableEq

/-- A sequence of record operations on one `(show_id, form_type)`, each one a
`_snapshot_form_history` call (as performed by every save). -/
def runSaves (db : DB) (sid : Nat) (ft : String) : List SaveOp → DB
  | [] => db
  | op :: ops =>
    runSaves (snapshotFormHistory db sid ft op.user op.snap op.time) sid ft ops

/-- The history rows such a sequence inserts (`AUTOINCREMENT` ids assigned
from `n0` on). -/
def insertedRows (sid : Nat) (ft : String) : Nat → List SaveOp → List HistRow
  | _, [] => []
  | n0, op :: ops =>
    ⟨n0, sid, ft, op.user, op.time, op.snap⟩ :: insertedRows sid ft (n0 + 1) ops

theorem chain_le_head {a : Nat} {l : List Nat}
    (h : List.Chain' (· ≤ ·) (a :: l)) : ∀ b ∈ l, a ≤ b := by
  induction l generalizing a with
  | nil => intro b hb; cases hb
  | cons c l ih =>
    intro b hb
    obtain ⟨h1, h2⟩ := List.chain'_cons.mp h
    rcases List.mem_cons.mp hb with rfl | hb'
    · exact h1
    · exact le_trans h1 (ih h2 b hb')

theorem insertedRows_time (sid : Nat) (ft : String) :
    ∀ (ops : List SaveOp) (n0 : Nat) (r : HistRow),
      r ∈ insertedRows sid ft n0 ops → ∃ op ∈ ops, r.saved_at = op.time
  | [], _, r, h => by cases h
  | op :: ops, n0, r, h => by
    rcases List.mem_cons.mp h with rfl | h'
    · exact ⟨op, List.mem_cons_self _ _, rfl⟩
    · obtain ⟨op', hop', ht⟩ := insertedRows_time sid ft ops (n0 + 1) r h'
      exact ⟨op', List.mem_cons_of_mem _ hop', ht⟩

/-- Invariant induction over a sequence of record operations: the table's
length follows `min (initial + #ops) 50`, every row comes from the initial
table or from the inserted rows, and every surviving row dominates every
discarded one in `saved_at`. -/
theorem runSaves_spec (sid : Nat) (ft : String) :
    ∀ (ops : List SaveOp) (db : DB),
      (∀ r ∈ db.form_history, r.show_id = sid ∧ r.form_type = ft) →
      (∀ r ∈ db.form_history, r.id < db.next_hist_id) →
      ((db.form_history.map (·.id)).Nodup) →
      (List.Chain' (· ≤ ·) (ops.map (·.time))) →
      (∀ r ∈ db.form_history, ∀ op ∈ ops, r.saved_at ≤ op.time) →
      db.form_history.length ≤ 50 →
      (runSaves db sid ft ops).form_history.length =
        min (db.form_history.length + ops.length) 50 ∧
      (∀ r ∈ (runSaves db sid ft ops).form_history,
        r ∈ db.form_history ∨ r ∈ insertedRows sid ft db.next_hist_id ops) ∧
      (∀ r ∈ (runSaves db sid ft ops).form_history, ∀ d : HistRow,
        (d ∈ db.form_history ∨ d ∈ insertedRows sid ft db.next_hist_id ops) →
        d ∉ (runSaves db sid ft ops).form_history → d.saved_at ≤ r.saved_at)
  | [], db, hpair, hid, hnodup, hchain, htime, hlen => by
    refine ⟨?_, ?_, ?_⟩
    · show db.form_history.length = min (db.form_history.length + 0) 50
      omega
    · intro r hr
      exact Or.inl hr
    · intro r hr d hd hdnot
      rcases hd with hd | hd
      · exact absurd hd hdnot
      · cases hd
  | op :: ops, db, hpair, hid, hnodup, hchain, htime, hlen => by
    obtain ⟨hsLen, hsSub, hsDom, hsPair, hsId, hsNodup, hsTime, hsNew⟩ :=
      snapshot_step db sid ft op.user op.snap op.time hpair hid hnodup
        (fun r hr => htime r hr op (List.mem_cons_self _ _))
    have hchain' : List.Chain' (· ≤ ·)
        (op.time :: ops.map (·.time)) := hchain
    have hchainTail : List.Chain' (· ≤ ·) (ops.map (·.time)) :=
      (List.chain'_cons'.mp hchain').2
    have hheadle : ∀ op' ∈ ops, op.time ≤ op'.time := by
      intro op' hop'
      exact chain_le_head hchain' _ (List.mem_map_of_mem (·.time) hop')
    have htime1 : ∀ r ∈ (snapshotFormHistory db sid ft op.user op.snap
        op.time).form_history, ∀ op' ∈ ops, r.saved_at ≤ op'.time := by
      intro r hr op' hop'
      rcases hsSub r hr with rfl | h
      · exact hheadle op' hop'
      · exact htime r h op' (List.mem_cons_of_mem _ hop')
    have hnid1 : (snapshotFormHistory db sid ft op.user op.snap
        op.time).next_hist_id = db.next_hist_id + 1 := rfl
    obtain ⟨hL, hM, hD⟩ := runSaves_spec sid ft ops
      (snapshotFormHistory db sid ft op.user op.snap op.time)
      hsPair hsId hsNodup hchainTail htime1 (by omega)
    refine ⟨?_, ?_, ?_⟩
    · show (runSaves (snapshotFormHistory db sid ft op.user op.snap op.time)
        sid ft ops).form_history.length = _
      rw [hL, hsLen]
      simp only [List.length_cons]
      omega
    · intro r hr
      rcases hM r hr with h | h
      · rcases hsSub r h with rfl | h'
        · exact Or.inr (List.mem_cons_self _ _)
        · exact Or.inl h'
      · refine Or.inr (List.mem_cons_of_mem _ ?_)
        rw [hnid1] at h
        exact h
    · intro r hr d hd hdnot
      by_cases hdin1 : d ∈ (snapshotFormHistory db sid ft op.user op.snap
          op.time).form_history
      · exact hD r hr d (Or.inl hdin1) hdnot
      · rcases hd with hd | hd
        · rcases hM r hr with hr1 | hr2
          · exact hsDom r hr1 d (Or.inr hd) hdin1
          · obtain ⟨op', hop', hteq⟩ :=
              insertedRows_time sid ft ops _ r hr2
            have h1 : d.saved_at ≤ op.time :=
              htime d hd op (List.mem_cons_self _ _)
            have h2 : op.time ≤ op'.time := hheadle op' hop'
            rw [hteq]
            omega
        · rcases List.mem_cons.mp hd with rfl | hdtail
          · exact absurd hsNew hdin1
          · refine hD r hr d (Or.inr ?_) hdnot
            rw [hnid1]
            exact hdtail

/-- **C2.** Starting from an empty history, any sequence of more than 50
record operations for one `(show_id, form_type)` — run at non-decreasing
instants, as `CURRENT_TIMESTAMP` guarantees — leaves exactly 50 history rows,
all of them among the inserted snapshots, each surviving row at least as
recent (by `saved_at`) as every discarded one; and since every record is
immediately followed by the prune, every prefix of the sequence leaves at
most 50 rows. -/
theorem history_retention_spec (db0 : DB) (sid : Nat) (ft : String)
    (ops : List SaveOp)
    (hemp : db0.form_history = [])
    (hchain : List.Chain' (· ≤ ·) (ops.map (·.time)))
    (hN : 50 < ops.length) :
    (runSaves db0 sid ft ops).form_history.length = 50 ∧
    (∀ r ∈ (runSaves db0 sid ft ops).form_history,
      r ∈ insertedRows sid ft db0.next_hist_id ops) ∧
    (∀ r ∈ (runSaves db0 sid ft ops).form_history,
      ∀ d ∈ insertedRows sid ft db0.next_hist_id ops,
        d ∉ (runSaves db0 sid ft ops).form_history → d.saved_at ≤ r.saved_at) ∧
    (∀ k : Nat, (runSaves db0 sid ft (ops.take k)).form_history.length ≤ 50) := by
  have happly : ∀ (l : List SaveOp), List.Chain' (· ≤ ·) (l.map (·.time)) →
      (runSaves db0 sid ft l).form_history.length = min l.length 50 ∧
      (∀ r ∈ (runSaves db0 sid ft l).form_history,
        r ∈ insertedRows sid ft db0.next_hist_id l) ∧
      (∀ r ∈ (runSaves db0 sid ft l).form_history, ∀ d : HistRow,
        d ∈ insertedRows sid ft db0.next_hist_id l →
        d ∉ (runSaves db0 sid ft l).form_history → d.saved_at ≤ r.saved_at) := by
    intro l hc
    obtain ⟨hL, hM, hD⟩ := runSaves_spec sid ft l db0
      (by rw [hemp]; intro r hr; cases hr)
      (by rw [hemp]; intro r hr; cases hr)
      (by rw [hemp]; exact List.nodup_nil)
      hc
      (by rw [hemp]; intro r hr; cases hr)
      (by rw [hemp]; exact Nat.zero_le 50)
    refine ⟨?_, ?_, ?_⟩
    · rw [hL, hemp]
      simp
    · intro r hr
      rcases hM r hr with h | h
      · rw [hemp] at h; cases h
      · exact h
    · intro r hr d hd hdnot
      exact hD r hr d (Or.inr hd) hdnot
  obtain ⟨hL, hM, hD⟩ := happly ops hchain
  refine ⟨by omega, hM, ?_, ?_⟩
  · intro r hr d hd hdnot
    exact hD r hr d hd hdnot
  · intro k
    obtain ⟨hLk, -, -⟩ := happly (ops.take k) (by
      rw [List.map_take]
      exact hchain.take k)
    omega

/-- The concrete run for the retention witness: 51 saves by user 1 at
instants 0,…,50, on an empty database. -/
def opsC2 : List SaveOp :=
  (List.range 51).map (fun i => ⟨i, some 1, {}⟩)

/-- Empty database for the retention witness. -/
def dbC2 : DB :=
  { users := [⟨1, "admin"⟩], user_groups := [], user_group_members := [],
    show_group_access := [],
    shows := [⟨1, "S", none, "", "Hall", none, none, 0⟩],
    advance_data := [], schedule_rows := [], schedule_meta := [],
    post_show_notes := [], form_history := [], active_sessions := [],
    show_performances := [], next_hist_id := 0 }

/-- Closed witness for `history_retention_spec`: after 51 saves exactly 50
history rows remain. -/
theorem history_retention_spec_witness :
    (runSaves dbC2 1 "advance" opsC2).form_history.length = 50 ∧
    50 < opsC2.length := by
  have hc : List.Chain' (· ≤ ·) (opsC2.map (·.time)) := by
    have he : opsC2.map (·.time) = List.range 51 := by decide
    rw [he, show (51 : Nat) = 50 + 1 from rfl, List.chain'_range_succ]
    intro m hm
    omega
  exact ⟨(history_retention_spec dbC2 1 "advance" opsC2 rfl hc (by decide)).1,
    by decide⟩

end ShowAdvance
